import Mathlib

/-!
Verification of the Moduz tenant-scoped module authorization and audit
subsystem.  The definitions below are a shallow embedding of the
repository's code:

* `src/components/adm/module-registry.ts` (catalog),
* `src/supabase/migrations/20251229_core_modules_enabled.sql`
  (`moduz_core_seed_modules`, `tg_modules_enabled_guardrails`),
* `src/app/api/admin/core/modules/toggle/route.ts`,
* `src/app/api/admin/core/modules/list/route.ts`,
* `src/app/api/admin/core/audit/list/route.ts`,
* `src/app/api/admin/core/context/route.ts`,
* `src/components/adm/module-guard.tsx`,
* `src/components/adm/adm-shell.tsx`,
* the one-time bootstrap route (`app/api/admin/bootstrap/route.ts`, v1).

The database table `modules_enabled` is modelled as a list of rows; the
uniqueness of the `(empresa_id, module_key)` primary key is carried as an
explicit well-formedness hypothesis where a theorem needs it.
-/

namespace Moduz

/-! ### Module catalog (module-registry.ts, v2) -/

/-- Canonical catalog order, `MODULE_ORDER` in module-registry.ts. -/
def MODULE_ORDER : List String :=
  ["core", "docs", "people", "track", "finance", "bizz", "stock", "assets", "flow"]

/-- The `VALID_MODULES` set of toggle/route.ts (same nine keys). -/
def VALID_MODULES (k : String) : Bool := MODULE_ORDER.contains k

/-- `MODULES[k].implemented` from module-registry.ts (v2): only core and docs. -/
def implementedOf (k : String) : Bool := k == "core" || k == "docs"

/-- `MODULES[k].locked` from module-registry.ts (v2): only core. -/
def lockedOf (k : String) : Bool := k == "core"

/-- `ROUTES_BY_MODULE` from module-registry.ts (v2): only routes that
exist today, keyed by module, value is the nav href (labels elided
except where the UI needs them). -/
def ROUTES_BY_MODULE : List (String × String) :=
  [("core", "/adm"), ("docs", "/adm/docs")]

/-- Nav labels of `ROUTES_BY_MODULE` (v2). -/
def routeLabelOf (k : String) : String :=
  if k == "core" then "Core" else if k == "docs" then "Docs" else k

/-! ### The modules_enabled table -/

/-- One row of `modules_enabled` as read and written by the API routes
(`module_key`, `enabled`, `enabled_at`, `updated_at`).  Timestamps are
naturals; `enabled_at` is optional (null allowed). -/
structure Row where
  empresa_id : String
  module_key : String
  enabled : Bool
  enabled_at : Option Nat
  updated_at : Nat
deriving DecidableEq, Repr

/-- Does a row for `(e, k)` exist? (the primary-key membership test). -/
def hasRow (st : List Row) (e k : String) : Bool :=
  st.any fun r => r.empresa_id == e && r.module_key == k

/-- First row for `(e, k)` (under the primary key there is at most one). -/
def lookupRow (st : List Row) (e k : String) : Option Row :=
  st.find? fun r => r.empresa_id == e && r.module_key == k

/-- Replace the first row for `(e, k)` by `f` applied to it. -/
def updateRow (e k : String) (f : Row → Row) : List Row → List Row
  | [] => []
  | r :: rs =>
    if r.empresa_id == e && r.module_key == k then f r :: rs
    else r :: updateRow e k f rs

/-! ### Seed (moduz_core_seed_modules, 20251229_core_modules_enabled.sql) -/

/-- The nine `(modulo, ativo)` pairs inserted by `moduz_core_seed_modules`:
core and docs enabled, the rest disabled. -/
def SEED_VALUES : List (String × Bool) :=
  [("core", true), ("docs", true), ("people", false), ("track", false),
   ("finance", false), ("bizz", false), ("stock", false), ("assets", false),
   ("flow", false)]

/-- The row one seed insert writes.  Modelled from the spec: the deployed
`modules_enabled` DDL carrying the `enabled_at` column is not among the
migrations in the repository (they declare `modulo`/`ativo` only, the
routes read `module_key`/`enabled`/`enabled_at`); the inserted
`enabled_at` default follows the spec's Seed description (`now()` if
enabled else null). -/
def freshRow (e : String) (now : Nat) (kv : String × Bool) : Row :=
  { empresa_id := e, module_key := kv.1, enabled := kv.2,
    enabled_at := if kv.2 then some now else none, updated_at := now }

/-- One seed insert proper: no-op when the `(empresa_id, modulo)` primary
key is already taken, otherwise append the fresh row. -/
def seedInsert (e : String) (now : Nat) (st : List Row) (kv : String × Bool) :
    List Row :=
  if hasRow st e kv.1 then st else st ++ [freshRow e now kv]

/-- `moduz_core_seed_modules(p_empresa_id)`: insert all nine catalog rows,
no-op per row on primary-key conflict. -/
def seedModules (e : String) (now : Nat) (st : List Row) : List Row :=
  SEED_VALUES.foldl (seedInsert e now) st

/-! ### Authorization gate (assertAdmin in the module routes) -/

/-- One `profiles` row.  The modules routes select the role column as
`papel`, the audit/context routes select it as `role`; both spellings are
carried so each embedded route can read the column its source reads. -/
structure Profile where
  id : String
  user_id : String
  empresa_id : String
  papel : String
  role : String
  ativo : Bool
deriving DecidableEq, Repr

/-- Outcome of an admin check. -/
inductive AdminCheck where
  | ok (userId profileId : String)
  | err (status : Nat) (code : String)
deriving DecidableEq, Repr

/-- `assertAdmin` of modules/toggle/route.ts and modules/list/route.ts:
`auth.getUser()` result is passed in as `user`; then the profile for
`(user_id, empresa_id)` is looked up (`maybeSingle`), absent or inactive
is NO_PROFILE, non-admin `papel` is NOT_ADMIN. -/
def assertAdmin (profiles : List Profile) (user : Option String)
    (empresaId : String) : AdminCheck :=
  match user with
  | none => .err 401 "UNAUTHENTICATED"
  | some uid =>
    match profiles.find? (fun p => p.user_id == uid && p.empresa_id == empresaId) with
    | none => .err 403 "NO_PROFILE"
    | some p =>
      if p.ativo == false then .err 403 "NO_PROFILE"
      else if p.papel != "admin" then .err 403 "NOT_ADMIN"
      else .ok uid p.id

/-- `assertAdmin` of audit/list/route.ts: the caller has already resolved
the user (SSR cookies), the check reads the `role` column. -/
def auditAssertAdmin (profiles : List Profile) (userId empresaId : String) :
    AdminCheck :=
  match profiles.find? (fun p => p.user_id == userId && p.empresa_id == empresaId) with
  | none => .err 403 "NO_PROFILE"
  | some p =>
    if p.ativo == false then .err 403 "NO_PROFILE"
    else if p.role != "admin" then .err 403 "NOT_ADMIN"
    else .ok userId p.id

/-! ### Audit log -/

/-- One `audit_log` row (columns used by the embedded writers). -/
structure AuditEvent where
  empresa_id : String
  actor_user_id : String
  actor_profile_id : Option String
  action : String
  entity : Option String
  entity_id : Option String
  created_at : Nat
deriving DecidableEq, Repr

/-- JS `String.prototype.trim()`: strip whitespace from both ends
(list-based so that it evaluates in the kernel). -/
def jsTrim (s : String) : String :=
  String.mk (((s.data.dropWhile Char.isWhitespace).reverse.dropWhile
    Char.isWhitespace).reverse)

/-- JS `String.prototype.toLowerCase()` on the ASCII range the module
keys use. -/
def jsToLower (s : String) : String :=
  String.mk (s.data.map (fun c =>
    if 'A' ≤ c ∧ c ≤ 'Z' then Char.ofNat (c.toNat + 32) else c))

/-! ### Toggle endpoint (POST modules/toggle/route.ts) -/

/-- Response of the toggle endpoint. -/
inductive ToggleResponse where
  | err (status : Nat) (code : String)
  | ok (module_row : Row) (audit : String)
deriving DecidableEq, Repr

/-- The upsert performed by the toggle route
(`upsert(patch, { onConflict: "empresa_id,module_key" })`) together with
the `tg_modules_enabled_guardrails` before-trigger: the trigger raises
when `modulo = 'core'` and `ativo = false` (error branch), otherwise the
row is inserted or the conflicting row is updated with the patch columns
(`enabled`, and `enabled_at := now` only when enabling), and
`tg_set_updated_at` stamps `updated_at := now`. -/
def upsertToggle (e k : String) (enabled : Bool) (now : Nat) (st : List Row) :
    Except String (List Row × Row) :=
  if k == "core" && enabled == false then
    .error "core cannot be disabled"
  else if hasRow st e k then
    let st' := updateRow e k (fun r =>
      { r with enabled := enabled,
               enabled_at := if enabled then some now else r.enabled_at,
               updated_at := now }) st
    match lookupRow st' e k with
    | some r => .ok (st', r)
    | none => .error "row vanished"
  else
    let r : Row := { empresa_id := e, module_key := k, enabled := enabled,
                     enabled_at := if enabled then some now else none,
                     updated_at := now }
    .ok (st ++ [r], r)

/-- `POST /api/admin/core/modules/toggle`.  `accessToken` is the bearer or
cookie token (absent means MISSING_SESSION), `user` the result of
`auth.getUser()` under that token, `auditFails` simulates a failing
`audit_log` insert.  Returns the HTTP response, the new `modules_enabled`
state and the new audit log. -/
def togglePOST (profiles : List Profile) (accessToken : Option String)
    (user : Option String) (empresaId : Option String)
    (bodyModuleKey : String) (bodyEnabled : Bool) (now : Nat)
    (auditFails : Bool) (st : List Row) (audit : List AuditEvent) :
    ToggleResponse × List Row × List AuditEvent :=
  match empresaId with
  | none => (.err 400 "MISSING_EMPRESA_ID", st, audit)
  | some e =>
    match accessToken with
    | none => (.err 401 "MISSING_SESSION", st, audit)
    | some _ =>
      match assertAdmin profiles user e with
      | .err s c => (.err s c, st, audit)
      | .ok uid pid =>
        let moduleKey := jsToLower (jsTrim bodyModuleKey)
        if !(VALID_MODULES moduleKey) then
          (.err 400 "INVALID_MODULE_KEY", st, audit)
        else if moduleKey == "core" && bodyEnabled == false then
          (.err 400 "CORE_CANNOT_BE_DISABLED", st, audit)
        else
          let st1 := seedModules e now st
          match upsertToggle e moduleKey bodyEnabled now st1 with
          | .error _ => (.err 500 "DB_ERROR", st1, audit)
          | .ok (st2, row) =>
            if auditFails then
              (.ok row "FAILED", st2, audit)
            else
              (.ok row "OK", st2,
               audit ++ [{ empresa_id := e, actor_user_id := uid,
                           actor_profile_id := some pid,
                           action := "MODULE_TOGGLED",
                           entity := some "modules_enabled",
                           entity_id := none, created_at := now }])

/-! ### Ordering helpers for the embedded queries -/

/-- `order("module_key", { ascending: true })` of the list route. -/
def rowKeyLe (a b : Row) : Prop := a.module_key ≤ b.module_key

instance : DecidableRel rowKeyLe := fun a b =>
  inferInstanceAs (Decidable (a.module_key ≤ b.module_key))

instance : IsTotal Row rowKeyLe := ⟨fun a b => le_total a.module_key b.module_key⟩

instance : IsTrans Row rowKeyLe := ⟨fun _ _ _ h h' => le_trans h h'⟩

/-! ### List endpoint (GET modules/list/route.ts) -/

/-- Response of the modules list endpoint. -/
inductive ModulesListRes where
  | err (status : Nat) (code : String)
  | ok (empresa_id : String) (modules : List Row)
deriving DecidableEq, Repr

/-- `GET /api/admin/core/modules/list`: empresa header, token, admin gate,
idempotent seed, then select the tenant's rows ordered by `module_key`
ascending. -/
def modulesListGET (profiles : List Profile) (accessToken : Option String)
    (user : Option String) (empresaId : Option String) (now : Nat)
    (st : List Row) : ModulesListRes × List Row :=
  match empresaId with
  | none => (.err 400 "MISSING_EMPRESA_ID", st)
  | some e =>
    match accessToken with
    | none => (.err 401 "MISSING_SESSION", st)
    | some _ =>
      match assertAdmin profiles user e with
      | .err s c => (.err s c, st)
      | .ok _ _ =>
        let st1 := seedModules e now st
        let rows := List.insertionSort rowKeyLe
          (st1.filter (fun r => r.empresa_id == e))
        (.ok e rows, st1)

/-! ### Audit list endpoint (GET audit/list/route.ts) -/

/-- `order("created_at", { ascending: false })` of the audit list route. -/
def auditCreatedDesc (a b : AuditEvent) : Prop := b.created_at ≤ a.created_at

instance : DecidableRel auditCreatedDesc := fun a b =>
  inferInstanceAs (Decidable (b.created_at ≤ a.created_at))

instance : IsTotal AuditEvent auditCreatedDesc :=
  ⟨fun a b => (le_total b.created_at a.created_at).symm.imp id id |>.symm⟩

instance : IsTrans AuditEvent auditCreatedDesc := ⟨fun _ _ _ h h' => le_trans h' h⟩

/-- `clampInt` of audit/list/route.ts on an already-parsed number. -/
def clampInt (v : Option Int) (lo hi dflt : Int) : Int :=
  match v with
  | none => dflt
  | some n => max lo (min hi n)

/-- Response of the audit list endpoint. -/
inductive AuditListRes where
  | err (status : Nat) (code : String)
  | ok (empresa_id : String) (items : List AuditEvent) (next_cursor : Option Nat)
deriving DecidableEq, Repr

/-- `GET /api/admin/core/audit/list`: empresa header, SSR user, admin gate
on the `role` column, then page the tenant's audit rows by `created_at`
descending with an optional `lt` cursor and a clamped limit. -/
def auditListGET (profiles : List Profile) (user : Option String)
    (empresaId : Option String) (limit : Option Int) (cursor : Option Nat)
    (log : List AuditEvent) : AuditListRes :=
  match empresaId with
  | none => .err 400 "MISSING_EMPRESA_ID"
  | some e =>
    match user with
    | none => .err 401 "MISSING_SESSION"
    | some uid =>
      match auditAssertAdmin profiles uid e with
      | .err s c => .err s c
      | .ok _ _ =>
        let lim := (clampInt limit 1 200 50).toNat
        let filtered := log.filter fun a =>
          a.empresa_id == e &&
          (match cursor with | some c => decide (a.created_at < c) | none => true)
        let rows := (List.insertionSort auditCreatedDesc filtered).take lim
        .ok e rows ((rows.getLast?).map (·.created_at))

/-! ### Context endpoint (GET context/route.ts) -/

/-- One `profiles` row as selected by the context route
(`id, empresa_id, role, ativo, display_name, created_at` for a user). -/
structure CtxProfile where
  id : String
  user_id : String
  empresa_id : String
  role : Option String
  ativo : Option Bool
  display_name : Option String
  created_at : Nat
deriving DecidableEq, Repr

/-- `order("created_at", { ascending: true })` of the context route. -/
def ctxCreatedLe (a b : CtxProfile) : Prop := a.created_at ≤ b.created_at

instance : DecidableRel ctxCreatedLe := fun a b =>
  inferInstanceAs (Decidable (a.created_at ≤ b.created_at))

instance : IsTotal CtxProfile ctxCreatedLe :=
  ⟨fun a b => le_total a.created_at b.created_at⟩

instance : IsTrans CtxProfile ctxCreatedLe := ⟨fun _ _ _ h h' => le_trans h h'⟩

/-- Keep-first dedup with an explicit seen accumulator (the behaviour of
feeding a list through a JS `Set` and reading it back). -/
def dedupFirstAux (seen : List String) : List String → List String
  | [] => []
  | x :: xs =>
    if seen.contains x then dedupFirstAux seen xs
    else x :: dedupFirstAux (x :: seen) xs

/-- `Array.from(new Set(list))`. -/
def dedupFirst (l : List String) : List String := dedupFirstAux [] l

/-- An `empresas` entry of the context response. -/
structure EmpresaOut where
  empresa_id : String
  nome : Option String
  role : Option String
  ativo : Bool
deriving DecidableEq, Repr

/-- The `profile` block of the context response. -/
structure CtxProfileOut where
  profile_id : Option String
  display_name : Option String
  role : Option String
  empresa_id : Option String
deriving DecidableEq, Repr

/-- Context response. -/
inductive CtxResponse where
  | err (status : Nat) (code : String)
  | ok (user_id : String) (email : Option String)
      (profile : Option CtxProfileOut) (empresas : List EmpresaOut)
      (default_empresa_id : Option String)
deriving DecidableEq, Repr

/-- The active memberships of `uid` in creation order: the route's query
(`eq user_id`, `order created_at asc`) followed by its
`filter (p.ativo !== false)`. -/
def activeProfilesOf (uid : String) (profiles : List CtxProfile) :
    List CtxProfile :=
  (List.insertionSort ctxCreatedLe
    (profiles.filter (fun p => p.user_id == uid))).filter
    (fun p => p.ativo != some false)

/-- `GET /api/admin/core/context`.  `user` is the SSR `auth.getUser()`
result (id and email); `empresas` is the `empresas` table as `(id, nome)`
pairs.  Mirrors the route: active profiles in creation order, company
names looked up only for the collected ids (`nome ?? id` per row), the
`ativo` of an output entry is `Boolean(p.ativo ?? true)`, the default
empresa is the first entry with `ativo` (falling back to the first entry),
and the primary profile is the first active profile. -/
def contextGET (user : Option (String × Option String))
    (profiles : List CtxProfile) (empresas : List (String × Option String)) :
    CtxResponse :=
  match user with
  | none => .err 401 "MISSING_SESSION"
  | some (uid, email) =>
    let activeProfiles := activeProfilesOf uid profiles
    let empresaIds := dedupFirst (activeProfiles.map (·.empresa_id))
    let nameById : String → Option String := fun i =>
      if empresaIds.contains i then (empresas.lookup i).map (fun n => n.getD i)
      else none
    let empresasOut : List EmpresaOut := activeProfiles.map fun p =>
      { empresa_id := p.empresa_id, nome := nameById p.empresa_id,
        role := p.role, ativo := p.ativo.getD true }
    let dflt :=
      match (empresasOut.find? (·.ativo)).map (·.empresa_id) with
      | some i => some i
      | none => (empresasOut.head?).map (·.empresa_id)
    let primary := activeProfiles.head?
    .ok uid email
      (primary.map fun p =>
        { profile_id := some p.id, display_name := p.display_name,
          role := p.role, empresa_id := some p.empresa_id })
      empresasOut dflt

/-- JS `String.prototype.startsWith` (list-based so that it evaluates in
the kernel). -/
def jsStartsWith (s pre : String) : Bool := pre.data.isPrefixOf s.data

/-! ### Navigation guard (module-guard.tsx) -/

/-- `resolveModuleFromPath` of module-guard.tsx: `/adm` and `/adm/core/**`
are core; otherwise scan `ROUTES_BY_MODULE`, skipping the `/adm` href,
keeping the longest matching href (strictly longer wins, first wins ties),
and return the key only when it is a catalog key. -/
def resolveModuleFromPath (pathname : String) : Option String :=
  if pathname == "" then none
  else if pathname == "/adm" || jsStartsWith pathname ("/adm/core") then some "core"
  else
    let best := ROUTES_BY_MODULE.foldl
      (fun (best : Option (String × String)) kr =>
        let href := kr.2
        if href == "/adm" then best
        else if pathname == href || jsStartsWith pathname (href ++ "/")
            || jsStartsWith pathname href then
          match best with
          | none => some kr
          | some b => if href.length > b.2.length then some kr else best
        else best)
      none
    match best with
    | none => none
    | some b => if MODULE_ORDER.contains b.1 then some b.1 else none

/-- Decision of the guard effect in `ModuleGuard`. -/
inductive GuardDecision where
  | allow
  | deny (reason : String) (redirect : String)
deriving DecidableEq, Repr

/-- The guard body of module-guard.tsx: unresolvable paths pass, core
always passes, then an unregistered or unimplemented module is denied
towards `/adm` and a disabled module towards `/adm/core/modulos`. -/
def moduleGuardCheck (enabledKeys : List String) (pathname : String) :
    GuardDecision :=
  match resolveModuleFromPath pathname with
  | none => .allow
  | some k =>
    if k == "core" then .allow
    else if (ROUTES_BY_MODULE.lookup k).isNone then
      .deny "not_implemented" "/adm"
    else if !(implementedOf k) then
      .deny "not_implemented" "/adm"
    else if !(enabledKeys.contains k) then
      .deny "not_enabled" "/adm/core/modulos"
    else .allow

/-! ### Client shell cache (adm-shell.tsx, v6.3.2) -/

/-- A module row as the client reads it from the list endpoint. -/
structure ClientModuleRow where
  module_key : String
  enabled : Bool
deriving DecidableEq, Repr

/-- `CORE_ONLY` of adm-shell.tsx. -/
def CORE_ONLY : List String := ["core"]

/-- `Array.from(new Set(["core", ...keys]))`. -/
def uniqWithCore (keys : List String) : List String :=
  dedupFirst ("core" :: keys)

/-- The keys derived from the localStorage cache in `loadContext` /
`onChangeEmpresaId`: the cache value is filtered to catalog keys
(`getEnabledModulesCache`), an absent or empty result falls back to
`CORE_ONLY`, otherwise core is prepended and the list deduped. -/
def keysFromCache (cached : Option (List String)) : List String :=
  match cached with
  | none => CORE_ONLY
  | some l =>
    let arr := l.filter (fun x => MODULE_ORDER.contains x)
    if arr.isEmpty then CORE_ONLY else uniqWithCore arr

/-- The keys derived from a successful list response in
`loadEnabledModules`: enabled rows, keys filtered to the catalog, core
prepended, deduped. -/
def keysFromModules (rows : List ClientModuleRow) : List String :=
  uniqWithCore
    (((rows.filter (·.enabled)).map (·.module_key)).filter
      (fun k => MODULE_ORDER.contains k))

/-- Client shell state: the active empresa and the enabled-module cache. -/
structure ShellState where
  empresaId : Option String
  enabledKeys : List String
deriving DecidableEq, Repr

/-- The events that update `enabledKeys` in adm-shell.tsx. -/
inductive ShellEvent where
  /-- `loadContext` finished: the chosen empresa (if any) and the
  localStorage cache read for it.  `none` empresa also covers the
  error paths, which reset to `CORE_ONLY`. -/
  | ctxLoaded (nextEmpresa : Option String) (cached : Option (List String))
  /-- `loadEnabledModules eid` settled: `none` is a fetch error, a non-ok
  response or unparsable json; `some (rid, rows)` is an ok response whose
  body names empresa `rid`. -/
  | modulesResp (eid : String) (resp : Option (String × List ClientModuleRow))
  /-- A `moduz:modules-updated` window event with optional empresa id and
  optional keys array. -/
  | modulesUpdated (eid : Option String) (keys : Option (List String))
  /-- `onChangeEmpresaId`: switch tenant, reading that tenant's cache. -/
  | switchEmpresa (next : String) (cached : Option (List String))

/-- One step of the shell's enabled-modules state machine, one case per
`setEnabledKeys` call site of adm-shell.tsx (v6.3.2). -/
def shellStep (s : ShellState) : ShellEvent → ShellState
  | .ctxLoaded none _ => { empresaId := none, enabledKeys := CORE_ONLY }
  | .ctxLoaded (some e) cached =>
    { empresaId := some e, enabledKeys := keysFromCache cached }
  | .modulesResp eid resp =>
    match resp with
    | none => s
    | some (rid, rows) =>
      if rid != eid then s
      else { s with enabledKeys := keysFromModules rows }
  | .modulesUpdated eid keys =>
    match eid, keys with
    | some e, some ks =>
      if s.empresaId == some e then
        { s with enabledKeys :=
            uniqWithCore (ks.filter (fun k => MODULE_ORDER.contains k)) }
      else s
    | _, _ => s
  | .switchEmpresa next cached =>
    { empresaId := some next, enabledKeys := keysFromCache cached }

/-- Initial shell state (`useState(CORE_ONLY)`). -/
def shellInit : ShellState := { empresaId := none, enabledKeys := CORE_ONLY }

/-- Nav item of the shell menu. -/
structure NavItem where
  href : String
  label : String
deriving DecidableEq, Repr

/-- Comparator of `buildMenu`: core first, then ascending labels. -/
def menuLe (a b : String) : Prop :=
  if a = "core" then True
  else if b = "core" then False
  else routeLabelOf a ≤ routeLabelOf b

instance : DecidableRel menuLe := fun a b => by
  unfold menuLe
  split
  · exact inferInstance
  · split <;> exact inferInstance

/-- `buildMenu` of adm-shell.tsx: keep core plus the implemented keys with
a registered route, sort core-first-then-label, map to the routes. -/
def buildMenu (keys : List String) : List NavItem :=
  let allowedKeys := keys.filter fun k =>
    k == "core" || (implementedOf k && (ROUTES_BY_MODULE.lookup k).isSome)
  let sortedKeys := List.insertionSort menuLe allowedKeys
  sortedKeys.filterMap fun k =>
    (ROUTES_BY_MODULE.lookup k).map fun href =>
      { href := href, label := routeLabelOf k }

/-! ### Bootstrap endpoint (app/api/admin/bootstrap/route.ts, v1) -/

/-- A `profiles` row as inserted by the bootstrap route. -/
structure BootProfile where
  empresa_id : String
  user_id : String
  role : String
  ativo : Bool
  display_name : String
deriving DecidableEq, Repr

/-- The stores the bootstrap route writes to. -/
structure BootState where
  empresas : List (String × String)
  settingsRows : List String
  moduleRows : List Row
  profileRows : List BootProfile
  auditRows : List AuditEvent
deriving DecidableEq, Repr

/-- Bootstrap request body. -/
structure BootBody where
  empresa_nome : Option String
  empresa_slug : Option String
  admin_user_id : Option String
  admin_display_name : Option String
  enable_modules : Option (List String)
deriving DecidableEq, Repr

/-- Bootstrap response: status and ok flag. -/
structure BootRes where
  status : Nat
  ok : Bool
deriving DecidableEq, Repr

/-- JS `a || b` on an optional string: empty and absent both fall back. -/
def jsOr (o : Option String) (d : String) : String :=
  match o with
  | some s => if s == "" then d else s
  | none => d

/-- A hexadecimal digit, either case. -/
def isHexDigit (c : Char) : Bool :=
  c.isDigit || (('a' ≤ c) && (c ≤ 'f')) || (('A' ≤ c) && (c ≤ 'F'))

/-- The bootstrap route's UUID check
(`[0-9a-f]{8}-[0-9a-f]{4}-[1-5][0-9a-f]{3}-[89ab][0-9a-f]{3}-[0-9a-f]{12}`,
case-insensitive). -/
def uuidOk (s : String) : Bool :=
  let cs := s.toList
  cs.length == 36 &&
  (List.range 36).all fun i =>
    let c := cs.getD i ' '
    if i == 8 || i == 13 || i == 18 || i == 23 then c == '-'
    else if i == 14 then ('1' ≤ c) && (c ≤ '5')
    else if i == 19 then
      c == '8' || c == '9' || c == 'a' || c == 'b' || c == 'A' || c == 'B'
    else isHexDigit c

/-- `POST /api/admin/bootstrap` (v1, the version that performs the
setup): refuse when empresas exist (409) or the admin user id is missing
or malformed (400); otherwise insert the empresa, its settings row, the
requested module rows (trimmed, deduped keep-first, normalised and
checked by the table's trigger and check constraint — a violation throws,
reaching the catch as a 500), the admin profile, and finally the audit
row; a failing audit insert is thrown, so it also reaches the catch and
turns the whole, already-committed operation into a 500. -/
def bootstrapPOST (body : BootBody) (newEmpresaId : String) (now : Nat)
    (auditFails : Bool) (s : BootState) : BootRes × BootState :=
  if s.empresas.length > 0 then (⟨409, false⟩, s)
  else
    match body.admin_user_id with
    | none => (⟨400, false⟩, s)
    | some adminId =>
      if adminId == "" then (⟨400, false⟩, s)
      else if !(uuidOk adminId) then (⟨400, false⟩, s)
      else
        let nome := jsTrim (jsOr body.empresa_nome "Empresa 1")
        let enable := (body.enable_modules).getD ["core", "docs"]
        let uniqueModules :=
          (enable.filter (fun m => decide (0 < (jsTrim m).length))).map (fun m => jsTrim m)
        let modKeys := dedupFirst uniqueModules
        let s1 : BootState :=
          { s with empresas := s.empresas ++ [(newEmpresaId, nome)],
                   settingsRows := s.settingsRows ++ [newEmpresaId] }
        let normKeys := modKeys.map (fun k => jsToLower (jsTrim k))
        if !(normKeys.all VALID_MODULES) || !(normKeys.Nodup : Bool) then
          (⟨500, false⟩, s1)
        else
          let s2 : BootState :=
            { s1 with moduleRows := s1.moduleRows ++ normKeys.map fun k =>
                { empresa_id := newEmpresaId, module_key := k,
                  enabled := true, enabled_at := none, updated_at := now } }
          let s3 : BootState :=
            { s2 with profileRows := s2.profileRows ++
                [{ empresa_id := newEmpresaId, user_id := adminId,
                   role := "admin", ativo := true,
                   display_name := jsTrim (jsOr body.admin_display_name "Admin") }] }
          if auditFails then (⟨500, false⟩, s3)
          else
            (⟨200, true⟩,
             { s3 with auditRows := s3.auditRows ++
                 [{ empresa_id := newEmpresaId, actor_user_id := adminId,
                    actor_profile_id := none, action := "core_bootstrap",
                    entity := some "empresas", entity_id := some newEmpresaId,
                    created_at := now }] })

/-! ### Derived views of the table -/

/-- The rows of one tenant, in storage order. -/
def rowsFor (e : String) (st : List Row) : List Row :=
  st.filter (fun r => r.empresa_id == e)

/-- The module keys of one tenant, in storage order. -/
def keysFor (e : String) (st : List Row) : List String :=
  (rowsFor e st).map (·.module_key)

/-- Per-tenant well-formedness carried by the real table's primary key and
check constraint: at most one row per module key, all keys from the
catalog. -/
def WFtenant (e : String) (st : List Row) : Prop :=
  (keysFor e st).Nodup ∧ ∀ k ∈ keysFor e st, k ∈ MODULE_ORDER

/-- A seed op with its own timestamp (one per-row insert of one concurrent
seeder). -/
def insOp (e : String) (st : List Row) (o : (String × Bool) × Nat) : List Row :=
  seedInsert e o.2 st o.1

/-! ### Table lemmas -/

theorem hasRow_append (st st' : List Row) (e k : String) :
    hasRow (st ++ st') e k = (hasRow st e k || hasRow st' e k) := by
  simp [hasRow]

theorem hasRow_eq_isSome (st : List Row) (e k : String) :
    hasRow st e k = (lookupRow st e k).isSome := by
  rw [Bool.eq_iff_iff]
  simp [hasRow, lookupRow, List.any_eq_true, List.find?_isSome]

theorem hasRow_iff_mem_keysFor (st : List Row) (e k : String) :
    hasRow st e k = true ↔ k ∈ keysFor e st := by
  simp only [hasRow, keysFor, rowsFor, List.any_eq_true, List.mem_map,
    List.mem_filter, Bool.and_eq_true, beq_iff_eq]
  constructor
  · rintro ⟨r, hr, he, hk⟩
    exact ⟨r, ⟨hr, by simp [he]⟩, hk⟩
  · rintro ⟨r, ⟨hr, he⟩, hk⟩
    exact ⟨r, hr, by simpa using he, hk⟩

theorem lookupRow_append (st st' : List Row) (e k : String) :
    lookupRow (st ++ st') e k = (lookupRow st e k).or (lookupRow st' e k) := by
  simp [lookupRow, List.find?_append]

theorem lookupRow_mem_props {st : List Row} {e k : String} {r : Row}
    (h : lookupRow st e k = some r) :
    r ∈ st ∧ r.empresa_id = e ∧ r.module_key = k := by
  have hm := List.mem_of_find?_eq_some h
  have hp := List.find?_some h
  simp only [Bool.and_eq_true, beq_iff_eq] at hp
  exact ⟨hm, hp.1, hp.2⟩

/-- `updateRow` leaves any row's identity columns alone when `f` does. -/
theorem hasRow_updateRow (e k : String) (f : Row → Row) (st : List Row)
    (hf : ∀ r, (f r).empresa_id = r.empresa_id ∧ (f r).module_key = r.module_key)
    (e' k' : String) :
    hasRow (updateRow e k f st) e' k' = hasRow st e' k' := by
  induction st with
  | nil => rfl
  | cons r rs ih =>
    by_cases h : (r.empresa_id == e && r.module_key == k) = true
    · simp [updateRow, h, hasRow, (hf r).1, (hf r).2]
    · simp only [updateRow, h, Bool.false_eq_true, if_false]
      simp [hasRow] at ih ⊢
      rw [ih]

theorem lookupRow_updateRow_self (e k : String) (f : Row → Row) (st : List Row)
    (hf : ∀ r, (f r).empresa_id = r.empresa_id ∧ (f r).module_key = r.module_key) :
    lookupRow (updateRow e k f st) e k = (lookupRow st e k).map f := by
  induction st with
  | nil => rfl
  | cons r rs ih =>
    by_cases h : (r.empresa_id == e && r.module_key == k) = true
    · have h' := h
      simp only [Bool.and_eq_true, beq_iff_eq] at h'
      simp [updateRow, h, lookupRow, List.find?_cons, (hf r).1, (hf r).2,
        h'.1, h'.2]
    · simp only [updateRow, h, Bool.false_eq_true, if_false]
      simp only [lookupRow, List.find?_cons] at ih ⊢
      rw [Bool.not_eq_true] at h
      rw [h]
      exact ih

theorem lookupRow_updateRow_other (e k e' k' : String) (f : Row → Row)
    (st : List Row) (h : ¬(e' = e ∧ k' = k))
    (hf : ∀ r, (f r).empresa_id = r.empresa_id ∧ (f r).module_key = r.module_key) :
    lookupRow (updateRow e k f st) e' k' = lookupRow st e' k' := by
  induction st with
  | nil => rfl
  | cons r rs ih =>
    by_cases hm : (r.empresa_id == e && r.module_key == k) = true
    · simp only [Bool.and_eq_true, beq_iff_eq] at hm
      have hne : (r.empresa_id == e' && r.module_key == k') = false := by
        rw [Bool.and_eq_false_iff]
        by_cases h1 : r.empresa_id = e'
        · right
          rw [beq_eq_false_iff_ne]
          intro h2
          exact h ⟨h1 ▸ hm.1.symm ▸ rfl, h2 ▸ hm.2.symm ▸ rfl⟩
        · left
          rwa [beq_eq_false_iff_ne]
      have hne' : ((f r).empresa_id == e' && (f r).module_key == k') = false := by
        rw [(hf r).1, (hf r).2]
        exact hne
      have hee : (e == e' && k == k') = false := by
        rw [Bool.and_eq_false_iff]
        by_cases h1 : e = e'
        · right
          rw [beq_eq_false_iff_ne]
          exact fun h2 => h ⟨h1.symm, h2.symm⟩
        · left
          rwa [beq_eq_false_iff_ne]
      simp [updateRow, hm, lookupRow, List.find?_cons, hne, hne', hee]
    · simp only [updateRow, hm, Bool.false_eq_true, if_false]
      simp only [lookupRow, List.find?_cons] at ih ⊢
      rw [Bool.not_eq_true] at hm
      cases hcur : (r.empresa_id == e' && r.module_key == k')
      · simpa [hcur] using ih
      · simp [hcur]

theorem updateRow_updateRow (e k : String) (f g : Row → Row) (st : List Row)
    (hg : ∀ r, (g r).empresa_id = r.empresa_id ∧ (g r).module_key = r.module_key) :
    updateRow e k f (updateRow e k g st) = updateRow e k (fun r => f (g r)) st := by
  induction st with
  | nil => rfl
  | cons r rs ih =>
    by_cases h : (r.empresa_id == e && r.module_key == k) = true
    · simp [updateRow, h, (hg r).1, (hg r).2]
    · simp [updateRow, h, ih]

theorem rowsFor_updateRow_map (e k e' : String) (f : Row → Row) (st : List Row)
    (hf : ∀ r, (f r).empresa_id = r.empresa_id ∧ (f r).module_key = r.module_key) :
    keysFor e' (updateRow e k f st) = keysFor e' st := by
  induction st with
  | nil => rfl
  | cons r rs ih =>
    by_cases h : (r.empresa_id == e && r.module_key == k) = true
    · by_cases hre : (r.empresa_id == e') = true <;>
        simp [updateRow, h, keysFor, rowsFor, List.filter_cons, (hf r).1,
          (hf r).2, hre]
    · simp only [updateRow, h, Bool.false_eq_true, if_false]
      simp only [keysFor, rowsFor, List.filter_cons] at ih ⊢
      split <;> simp [ih]

/-! ### Seed lemmas -/

theorem seedInsert_hasRow (e : String) (now : Nat) (st : List Row)
    (kv : String × Bool) (e' k : String) :
    hasRow (seedInsert e now st kv) e' k
      = (hasRow st e' k || (e == e' && kv.1 == k)) := by
  by_cases h : hasRow st e kv.1 = true
  · simp only [seedInsert, h, if_true]
    rw [Bool.eq_iff_iff]
    simp only [Bool.or_eq_true, Bool.and_eq_true, beq_iff_eq]
    constructor
    · exact Or.inl
    · rintro (hh | ⟨he, hk⟩)
      · exact hh
      · rw [← he, ← hk]
        exact h
  · rw [Bool.not_eq_true] at h
    simp only [seedInsert, h, Bool.false_eq_true, if_false]
    rw [hasRow_append]
    congr 1
    simp [hasRow, freshRow]

theorem foldl_insOp_hasRow (e : String) (ops : List ((String × Bool) × Nat))
    (st : List Row) (e' k : String) :
    hasRow (ops.foldl (insOp e) st) e' k
      = (hasRow st e' k || (e == e' && ops.any (fun o => o.1.1 == k))) := by
  induction ops generalizing st with
  | nil => simp
  | cons o ops ih =>
    rw [List.foldl_cons, ih, insOp, seedInsert_hasRow, List.any_cons]
    cases hasRow st e' k <;> cases h2 : (e == e') <;> simp

theorem seedModules_eq_foldl (e : String) (now : Nat) (st : List Row) :
    seedModules e now st
      = (SEED_VALUES.map (fun kv => (kv, now))).foldl (insOp e) st := by
  rw [List.foldl_map]
  rfl

theorem mem_MODULE_ORDER_iff (k : String) :
    k ∈ MODULE_ORDER ↔ SEED_VALUES.any (fun kv => kv.1 == k) = true := by
  simp only [ MODULE_ORDER, SEED_VALUES, List.mem_cons, List.not_mem_nil,
    or_false, List.any_cons, List.any_nil, Bool.or_eq_true, beq_iff_eq,
    Bool.or_false]
  constructor
  · rintro (rfl | rfl | rfl | rfl | rfl | rfl | rfl | rfl | rfl) <;> simp
  · rintro (rfl | rfl | rfl | rfl | rfl | rfl | rfl | rfl | rfl) <;> simp

theorem contains_MODULE_ORDER (k : String) :
    MODULE_ORDER.contains k = SEED_VALUES.any (fun kv => kv.1 == k) := by
  rw [Bool.eq_iff_iff]
  constructor
  · intro h
    exact (mem_MODULE_ORDER_iff k).mp (List.elem_iff.mp h)
  · intro h
    exact List.elem_iff.mpr ((mem_MODULE_ORDER_iff k).mpr h)

theorem seedValues_any (k : String) :
    SEED_VALUES.any (fun kv => kv.1 == k) = MODULE_ORDER.contains k :=
  (contains_MODULE_ORDER k).symm

theorem seedModules_hasRow (e : String) (now : Nat) (st : List Row)
    (e' k : String) :
    hasRow (seedModules e now st) e' k
      = (hasRow st e' k || (e == e' && MODULE_ORDER.contains k)) := by
  rw [seedModules_eq_foldl, foldl_insOp_hasRow]
  have h : ((SEED_VALUES.map (fun kv => (kv, now))).any fun o => o.1.1 == k)
      = SEED_VALUES.any (fun kv => kv.1 == k) := by
    simp [SEED_VALUES]
  rw [h, seedValues_any]

theorem foldl_insOp_noop (e : String) (ops : List ((String × Bool) × Nat))
    (st : List Row) (h : ∀ o ∈ ops, hasRow st e o.1.1 = true) :
    ops.foldl (insOp e) st = st := by
  induction ops with
  | nil => rfl
  | cons o ops ih =>
    rw [List.foldl_cons]
    have h0 : insOp e st o = st := by
      simp [insOp, seedInsert, h o (List.mem_cons_self o ops)]
    rw [h0]
    exact ih fun o' ho' => h o' (List.mem_cons_of_mem o ho')

theorem seedModules_noop (e : String) (now : Nat) (st : List Row)
    (h : ∀ k ∈ MODULE_ORDER, hasRow st e k = true) :
    seedModules e now st = st := by
  rw [seedModules_eq_foldl]
  apply foldl_insOp_noop
  intro o ho
  simp only [List.mem_map] at ho
  obtain ⟨kv, hkv, rfl⟩ := ho
  apply h
  have : kv.1 ∈ SEED_VALUES.map Prod.fst := List.mem_map_of_mem _ hkv
  simpa [SEED_VALUES, MODULE_ORDER] using this

theorem lookupRow_insOp_preserve (e : String) (st : List Row)
    (o : (String × Bool) × Nat) (e' k : String) (h : o.1.1 ≠ k) :
    lookupRow (insOp e st o) e' k = lookupRow st e' k := by
  by_cases hh : hasRow st e o.1.1 = true
  · simp [insOp, seedInsert, hh]
  · rw [Bool.not_eq_true] at hh
    simp only [insOp, seedInsert, hh, Bool.false_eq_true, if_false]
    rw [lookupRow_append]
    have : lookupRow [freshRow e o.2 o.1] e' k = none := by
      simp [lookupRow, freshRow, List.find?_cons, h]
    rw [this, Option.or_none]

theorem lookupRow_foldl_preserve (e : String)
    (ops : List ((String × Bool) × Nat)) (st : List Row) (e' k : String)
    (h : ∀ o ∈ ops, o.1.1 ≠ k) :
    lookupRow (ops.foldl (insOp e) st) e' k = lookupRow st e' k := by
  induction ops generalizing st with
  | nil => rfl
  | cons o ops ih =>
    rw [List.foldl_cons, ih _ fun o' ho' => h o' (List.mem_cons_of_mem o ho'),
      lookupRow_insOp_preserve e st o e' k (h o (List.mem_cons_self o ops))]

theorem lookupRow_insOp_new (e : String) (st : List Row)
    (o : (String × Bool) × Nat) (h : hasRow st e o.1.1 = false) :
    lookupRow (insOp e st o) e o.1.1 = some (freshRow e o.2 o.1) := by
  simp only [insOp, seedInsert, h, Bool.false_eq_true, if_false]
  rw [lookupRow_append]
  have h0 : lookupRow st e o.1.1 = none := by
    rw [hasRow_eq_isSome] at h
    exact Option.not_isSome_iff_eq_none.mp (by simp [h])
  rw [h0]
  simp [lookupRow, freshRow, List.find?_cons]

theorem lookupRow_foldl_new (e : String) (ops : List ((String × Bool) × Nat))
    (st : List Row) (o₀ : (String × Bool) × Nat)
    (hnd : (ops.map (fun o => o.1.1)).Nodup) (hmem : o₀ ∈ ops)
    (h : hasRow st e o₀.1.1 = false) :
    lookupRow (ops.foldl (insOp e) st) e o₀.1.1
      = some (freshRow e o₀.2 o₀.1) := by
  induction ops generalizing st with
  | nil => cases hmem
  | cons o ops ih =>
    rw [List.map_cons, List.nodup_cons] at hnd
    rcases List.mem_cons.mp hmem with rfl | hmem'
    · rw [List.foldl_cons]
      have hrest : ∀ o' ∈ ops, o'.1.1 ≠ o₀.1.1 := by
        intro o' ho' hq
        exact hnd.1 (hq ▸ List.mem_map_of_mem _ ho')
      rw [lookupRow_foldl_preserve e ops _ e o₀.1.1 hrest]
      exact lookupRow_insOp_new e st o₀ h
    · rw [List.foldl_cons]
      refine ih _ hnd.2 hmem' ?_
      rw [insOp, seedInsert_hasRow]
      have hne : (o.1.1 == o₀.1.1) = false := by
        rw [beq_eq_false_iff_ne]
        intro hq
        exact hnd.1 (hq ▸ List.mem_map_of_mem _ hmem')
      simp [h, hne]

theorem lookupRow_seedModules_new (e : String) (now : Nat) (st : List Row)
    (kv : String × Bool) (hkv : kv ∈ SEED_VALUES)
    (h : hasRow st e kv.1 = false) :
    lookupRow (seedModules e now st) e kv.1 = some (freshRow e now kv) := by
  rw [seedModules_eq_foldl]
  have hnd : ((SEED_VALUES.map (fun kv => (kv, now))).map
      (fun o => o.1.1)).Nodup := by
    rw [List.map_map,
      show ((fun (o : (String × Bool) × Nat) => o.1.1)
          ∘ fun kv : String × Bool => (kv, now)) = Prod.fst from rfl]
    decide
  exact lookupRow_foldl_new e _ st (kv, now) hnd
    (List.mem_map_of_mem _ hkv) h

/-! ### Keys of a tenant after seeding -/

theorem rowsFor_insOp (e : String) (st : List Row) (o : (String × Bool) × Nat) :
    rowsFor e (insOp e st o)
      = rowsFor e st
        ++ (if hasRow st e o.1.1 then [] else [freshRow e o.2 o.1]) := by
  by_cases h : hasRow st e o.1.1 = true
  · simp [insOp, seedInsert, h]
  · rw [Bool.not_eq_true] at h
    simp [insOp, seedInsert, h, rowsFor, List.filter_append, freshRow]

theorem keysFor_insOp (e : String) (st : List Row) (o : (String × Bool) × Nat) :
    keysFor e (insOp e st o)
      = keysFor e st ++ (if hasRow st e o.1.1 then [] else [o.1.1]) := by
  rw [keysFor, rowsFor_insOp]
  by_cases h : hasRow st e o.1.1 = true <;> simp [h, keysFor, freshRow]

theorem keysFor_insOp_nodup (e : String) (st : List Row)
    (o : (String × Bool) × Nat) (h : (keysFor e st).Nodup) :
    (keysFor e (insOp e st o)).Nodup := by
  rw [keysFor_insOp]
  by_cases hh : hasRow st e o.1.1 = true
  · simpa [hh]
  · rw [Bool.not_eq_true] at hh
    have hnot : ¬ o.1.1 ∈ keysFor e st := by
      intro hm
      rw [← hasRow_iff_mem_keysFor] at hm
      rw [hm] at hh
      cases hh
    simp [hh, List.nodup_append, h, hnot]

theorem keysFor_foldl_nodup (e : String) (ops : List ((String × Bool) × Nat))
    (st : List Row) (h : (keysFor e st).Nodup) :
    (keysFor e (ops.foldl (insOp e) st)).Nodup := by
  induction ops generalizing st with
  | nil => exact h
  | cons o ops ih => exact ih _ (keysFor_insOp_nodup e st o h)

theorem nodup_MODULE_ORDER : MODULE_ORDER.Nodup := by decide

theorem keysFor_seed_perm (e : String) (now : Nat) (st : List Row)
    (hwf : WFtenant e st) :
    (keysFor e (seedModules e now st)).Perm MODULE_ORDER := by
  have hnodup : (keysFor e (seedModules e now st)).Nodup := by
    rw [seedModules_eq_foldl]
    exact keysFor_foldl_nodup _ _ _ hwf.1
  have hvalid : ∀ k ∈ keysFor e (seedModules e now st), k ∈ MODULE_ORDER := by
    intro k hk
    rw [← hasRow_iff_mem_keysFor, seedModules_hasRow] at hk
    rcases Bool.or_eq_true_iff.mp hk with h1 | h2
    · exact hwf.2 k ((hasRow_iff_mem_keysFor st e k).mp h1)
    · exact List.elem_iff.mp (Bool.and_eq_true_iff.mp h2).2
  have hsup : ∀ k ∈ MODULE_ORDER, k ∈ keysFor e (seedModules e now st) := by
    intro k hk
    rw [← hasRow_iff_mem_keysFor, seedModules_hasRow]
    have h2 : MODULE_ORDER.contains k = true := List.elem_iff.mpr hk
    simp [h2]
    exact Or.inr hk
  exact (List.subperm_of_subset hnodup hvalid).antisymm
    (List.subperm_of_subset nodup_MODULE_ORDER hsup)

/-- The catalog keys in ascending lexicographic order: the shape `List`
after `Seed` must have. -/
def MODULE_SORTED : List String :=
  ["assets", "bizz", "core", "docs", "finance", "flow", "people", "stock",
   "track"]

theorem module_order_perm_sorted : MODULE_ORDER.Perm MODULE_SORTED := by decide

theorem module_sorted_is_sorted : MODULE_SORTED.Sorted (· ≤ ·) := by
  unfold List.Sorted
  rw [← List.chain'_iff_pairwise]
  simp only [ MODULE_SORTED, List.chain'_cons, List.chain'_singleton, and_true]
  refine ⟨?_, ?_, ?_, ?_, ?_, ?_, ?_, ?_⟩ <;>
    exact String.le_iff_toList_le.mpr (le_of_lt (by decide))

theorem sorted_rows_keys (rows : List Row) :
    (((List.insertionSort rowKeyLe rows).map (·.module_key)).Sorted
      (· ≤ ·)) :=
  List.Pairwise.map _ (fun _ _ h => h) (List.sorted_insertionSort rowKeyLe rows)

theorem sorted_rows_keys_eq (rows : List Row)
    (hp : (rows.map (·.module_key)).Perm MODULE_ORDER) :
    (List.insertionSort rowKeyLe rows).map (·.module_key) = MODULE_SORTED := by
  apply List.eq_of_perm_of_sorted _ (sorted_rows_keys rows) module_sorted_is_sorted
  exact (((List.perm_insertionSort rowKeyLe rows).map _).trans hp).trans
    module_order_perm_sorted

/-! ### Interleaved (concurrent) seeding -/

/-- The `(module_key, enabled)` projection of a tenant's rows. -/
def pairsFor (e : String) (st : List Row) : List (String × Bool) :=
  (rowsFor e st).map (fun r => (r.module_key, r.enabled))

theorem pairsFor_map_fst (e : String) (st : List Row) :
    (pairsFor e st).map Prod.fst = keysFor e st := by
  simp [pairsFor, keysFor, List.map_map]

theorem rows_pairs_foldl (e : String) (ops : List ((String × Bool) × Nat))
    (st : List Row) (hops : ∀ o ∈ ops, o.1 ∈ SEED_VALUES)
    (h0 : ∀ r ∈ rowsFor e st, (r.module_key, r.enabled) ∈ SEED_VALUES) :
    ∀ r ∈ rowsFor e (ops.foldl (insOp e) st),
      (r.module_key, r.enabled) ∈ SEED_VALUES := by
  induction ops generalizing st with
  | nil => exact h0
  | cons o ops ih =>
    rw [List.foldl_cons]
    refine ih _ (fun o' ho' => hops o' (List.mem_cons_of_mem o ho')) ?_
    intro r hr
    rw [rowsFor_insOp] at hr
    rcases List.mem_append.mp hr with h1 | h2
    · exact h0 r h1
    · by_cases hh : hasRow st e o.1.1 = true
      · rw [hh] at h2
        cases h2
      · rw [Bool.not_eq_true] at hh
        rw [hh] at h2
        simp only [Bool.false_eq_true, if_false, List.mem_singleton] at h2
        subst h2
        simpa [freshRow] using hops o (List.mem_cons_self o ops)

theorem pair_eq_of_fst_nodup {l : List (String × Bool)}
    (hnd : (l.map Prod.fst).Nodup) {p q : String × Bool}
    (hp : p ∈ l) (hq : q ∈ l) (h : p.1 = q.1) : p = q := by
  induction l with
  | nil => cases hp
  | cons a l ih =>
    rw [List.map_cons, List.nodup_cons] at hnd
    rcases List.mem_cons.mp hp with rfl | hp' <;>
      rcases List.mem_cons.mp hq with rfl | hq'
    · rfl
    · exact absurd (h ▸ List.mem_map_of_mem Prod.fst hq') hnd.1
    · exact absurd (h ▸ List.mem_map_of_mem Prod.fst hp') (by
        intro hm
        exact hnd.1 (by simpa [h] using hm))
    · exact ih hnd.2 hp' hq'

theorem nodup_SEED_fst : (SEED_VALUES.map Prod.fst).Nodup := by decide

theorem nodup_SEED : SEED_VALUES.Nodup := by decide

theorem interleaved_seed_pairs (e : String) (st : List Row)
    (ops : List ((String × Bool) × Nat))
    (hops : ∀ o ∈ ops, o.1 ∈ SEED_VALUES)
    (hcov : ∀ kv ∈ SEED_VALUES, kv ∈ ops.map Prod.fst)
    (hfresh : keysFor e st = []) :
    (pairsFor e (ops.foldl (insOp e) st)).Perm SEED_VALUES := by
  have hfreshrows : rowsFor e st = [] := by
    rw [keysFor] at hfresh
    exact List.map_eq_nil_iff.mp hfresh
  have hinv : ∀ r ∈ rowsFor e (ops.foldl (insOp e) st),
      (r.module_key, r.enabled) ∈ SEED_VALUES :=
    rows_pairs_foldl e ops st hops (by rw [hfreshrows]; intro r hr; cases hr)
  have hnodupkeys : (keysFor e (ops.foldl (insOp e) st)).Nodup :=
    keysFor_foldl_nodup e ops st (by rw [hfresh]; exact List.nodup_nil)
  have hnodupP : (pairsFor e (ops.foldl (insOp e) st)).Nodup :=
    List.Nodup.of_map Prod.fst (by rwa [pairsFor_map_fst])
  have hsubP : ∀ p ∈ pairsFor e (ops.foldl (insOp e) st), p ∈ SEED_VALUES := by
    intro p hp
    rcases List.mem_map.mp hp with ⟨r, hr, rfl⟩
    exact hinv r hr
  have hsupP : ∀ kv ∈ SEED_VALUES, kv ∈ pairsFor e (ops.foldl (insOp e) st) := by
    intro kv hkv
    have hany : ops.any (fun o => o.1.1 == kv.1) = true := by
      rcases List.mem_map.mp (hcov kv hkv) with ⟨o, ho, heq⟩
      exact List.any_eq_true.mpr ⟨o, ho, by simp [heq]⟩
    have hhas : hasRow (ops.foldl (insOp e) st) e kv.1 = true := by
      rw [foldl_insOp_hasRow]
      simp [hany]
    rw [hasRow_iff_mem_keysFor] at hhas
    rcases List.mem_map.mp hhas with ⟨r, hr, hkey⟩
    have hpair : (r.module_key, r.enabled) ∈ SEED_VALUES := hinv r hr
    have : (r.module_key, r.enabled) = kv :=
      pair_eq_of_fst_nodup nodup_SEED_fst hpair hkv (by simpa using hkey)
    rw [← this]
    exact List.mem_map_of_mem _ hr
  exact (List.subperm_of_subset hnodupP hsubP).antisymm
    (List.subperm_of_subset nodup_SEED hsupP)

/-! ### Toggle endpoint lemmas -/

/-- The record update the toggle upsert applies when enabling. -/
def enablePatch (now : Nat) (r : Row) : Row :=
  { r with enabled := true, enabled_at := some now, updated_at := now }

/-- The record update the toggle upsert applies when disabling. -/
def disablePatch (now : Nat) (r : Row) : Row :=
  { r with enabled := false, updated_at := now }


theorem enablePatch_eq (now : Nat) :
    (fun r : Row =>
      { r with enabled := true,
               enabled_at := if true then some now else r.enabled_at,
               updated_at := now })
    = enablePatch now := by
  funext r
  simp [enablePatch]

theorem disablePatch_eq (now : Nat) :
    (fun r : Row =>
      { r with enabled := false,
               enabled_at := if false then some now else r.enabled_at,
               updated_at := now })
    = disablePatch now := by
  funext r
  simp [disablePatch]

theorem enablePatch_id (now : Nat) (r : Row) :
    (enablePatch now r).empresa_id = r.empresa_id
      ∧ (enablePatch now r).module_key = r.module_key :=
  ⟨rfl, rfl⟩

theorem disablePatch_id (now : Nat) (r : Row) :
    (disablePatch now r).empresa_id = r.empresa_id
      ∧ (disablePatch now r).module_key = r.module_key :=
  ⟨rfl, rfl⟩

theorem hasRow_seed_valid (e : String) (now : Nat) (st : List Row)
    (k : String) (h : VALID_MODULES k = true) :
    hasRow (seedModules e now st) e k = true := by
  rw [seedModules_hasRow]
  have hm : k ∈ MODULE_ORDER := List.elem_iff.mp h
  simp [h, hm]

theorem upsertToggle_enable (e k : String) (now : Nat) (st : List Row)
    (hhas : hasRow st e k = true) :
    upsertToggle e k true now st
      = .ok (updateRow e k (enablePatch now) st,
             { empresa_id := e, module_key := k, enabled := true,
               enabled_at := some now, updated_at := now }) := by
  have hlk : ∃ r0, lookupRow st e k = some r0 := by
    rw [hasRow_eq_isSome] at hhas
    exact Option.isSome_iff_exists.mp hhas
  obtain ⟨r0, hr0⟩ := hlk
  have hprops := lookupRow_mem_props hr0
  unfold upsertToggle
  rw [if_neg (by simp), if_pos hhas, enablePatch_eq now]
  have hsf : lookupRow (updateRow e k (enablePatch now) st) e k
      = (lookupRow st e k).map (enablePatch now) :=
    lookupRow_updateRow_self e k _ st (enablePatch_id now)
  simp [hsf, hr0, enablePatch, hprops.2.1, hprops.2.2]

theorem upsertToggle_disable (e k : String) (now : Nat) (st : List Row)
    (hhas : hasRow st e k = true) (hk : (k == "core") = false) :
    ∃ r0, lookupRow st e k = some r0 ∧
      upsertToggle e k false now st
        = .ok (updateRow e k (disablePatch now) st,
               { empresa_id := e, module_key := k, enabled := false,
                 enabled_at := r0.enabled_at, updated_at := now }) := by
  have hlk : ∃ r0, lookupRow st e k = some r0 := by
    rw [hasRow_eq_isSome] at hhas
    exact Option.isSome_iff_exists.mp hhas
  obtain ⟨r0, hr0⟩ := hlk
  have hprops := lookupRow_mem_props hr0
  refine ⟨r0, hr0, ?_⟩
  unfold upsertToggle
  rw [if_neg (by simp [hk]), if_pos hhas, disablePatch_eq now]
  have hsf : lookupRow (updateRow e k (disablePatch now) st) e k
      = (lookupRow st e k).map (disablePatch now) :=
    lookupRow_updateRow_self e k _ st (disablePatch_id now)
  simp [hsf, hr0, disablePatch, hprops.2.1, hprops.2.2]

/-- An authorised enable call: full characterisation of response, table
state and audit log. -/
theorem togglePOST_enable_spec (profiles : List Profile) (tok : String)
    (user : Option String) (e uid pid bk : String) (now : Nat) (af : Bool)
    (st : List Row) (audit : List AuditEvent)
    (hadm : assertAdmin profiles user e = .ok uid pid)
    (hvalid : VALID_MODULES (jsToLower (jsTrim bk)) = true) :
    togglePOST profiles (some tok) user (some e) bk true now af st audit
      = (.ok { empresa_id := e, module_key := jsToLower (jsTrim bk),
               enabled := true, enabled_at := some now, updated_at := now }
           (if af then "FAILED" else "OK"),
         updateRow e (jsToLower (jsTrim bk)) (enablePatch now) (seedModules e now st),
         if af then audit
         else audit ++ [{ empresa_id := e, actor_user_id := uid,
                          actor_profile_id := some pid,
                          action := "MODULE_TOGGLED",
                          entity := some "modules_enabled",
                          entity_id := none, created_at := now }]) := by
  have hhas : hasRow (seedModules e now st) e (jsToLower (jsTrim bk)) = true :=
    hasRow_seed_valid e now st _ hvalid
  unfold togglePOST
  dsimp only
  rw [hadm]
  dsimp only
  simp only [hvalid, Bool.not_true, Bool.false_eq_true, if_false]
  rw [if_neg (by simp)]
  rw [upsertToggle_enable e (jsToLower (jsTrim bk)) now (seedModules e now st) hhas]
  cases af <;> simp

/-- An authorised disable call on a valid non-core key: the row keeps its
`enabled_at` and only `enabled`/`updated_at` change. -/
theorem togglePOST_disable_spec (profiles : List Profile) (tok : String)
    (user : Option String) (e uid pid bk : String) (now : Nat) (af : Bool)
    (st : List Row) (audit : List AuditEvent)
    (hadm : assertAdmin profiles user e = .ok uid pid)
    (hvalid : VALID_MODULES (jsToLower (jsTrim bk)) = true)
    (hk : (jsToLower (jsTrim bk) == "core") = false) :
    ∃ r0, lookupRow (seedModules e now st) e (jsToLower (jsTrim bk)) = some r0 ∧
      togglePOST profiles (some tok) user (some e) bk false now af st audit
        = (.ok { empresa_id := e, module_key := jsToLower (jsTrim bk),
                 enabled := false, enabled_at := r0.enabled_at,
                 updated_at := now }
             (if af then "FAILED" else "OK"),
           updateRow e (jsToLower (jsTrim bk)) (disablePatch now)
             (seedModules e now st),
           if af then audit
           else audit ++ [{ empresa_id := e, actor_user_id := uid,
                            actor_profile_id := some pid,
                            action := "MODULE_TOGGLED",
                            entity := some "modules_enabled",
                            entity_id := none, created_at := now }]) := by
  have hhas : hasRow (seedModules e now st) e (jsToLower (jsTrim bk)) = true :=
    hasRow_seed_valid e now st _ hvalid
  obtain ⟨r0, hr0, hup⟩ :=
    upsertToggle_disable e (jsToLower (jsTrim bk)) now (seedModules e now st) hhas hk
  refine ⟨r0, hr0, ?_⟩
  unfold togglePOST
  dsimp only
  rw [hadm]
  dsimp only
  simp only [hvalid, Bool.not_true, Bool.false_eq_true, if_false]
  rw [if_neg (by simp [hk])]
  rw [hup]
  cases af <;> simp

/-- An authorised attempt to disable core is rejected before any write. -/
theorem togglePOST_core_reject (profiles : List Profile) (tok : String)
    (user : Option String) (e uid pid bk : String) (now : Nat) (af : Bool)
    (st : List Row) (audit : List AuditEvent)
    (hadm : assertAdmin profiles user e = .ok uid pid)
    (hk : jsToLower (jsTrim bk) = "core") :
    togglePOST profiles (some tok) user (some e) bk false now af st audit
      = (.err 400 "CORE_CANNOT_BE_DISABLED", st, audit) := by
  unfold togglePOST
  dsimp only
  rw [hadm]
  dsimp only
  have hvalid : VALID_MODULES (jsToLower (jsTrim bk)) = true := by
    rw [hk]
    decide
  simp only [hvalid, Bool.not_true, Bool.false_eq_true, if_false]
  rw [if_pos (by simp [hk])]

/-! ### Generic fold helpers -/

theorem foldl_const_of_id {α β : Type} (f : α → β → α) (l : List β) (a : α)
    (h : ∀ x ∈ l, ∀ acc, f acc x = acc) : l.foldl f a = a := by
  induction l generalizing a with
  | nil => rfl
  | cons x xs ih =>
    rw [List.foldl_cons, h x (List.mem_cons_self x xs) a]
    exact ih a fun y hy acc => h y (List.mem_cons_of_mem x hy) acc

theorem rowsFor_append (e : String) (st st' : List Row) :
    rowsFor e (st ++ st') = rowsFor e st ++ rowsFor e st' := by
  simp [rowsFor, List.filter_append]

theorem rowsFor_foldl_fresh (e : String)
    (ops : List ((String × Bool) × Nat)) (st : List Row)
    (hnd : (ops.map (fun o => o.1.1)).Nodup)
    (hfresh : ∀ o ∈ ops, hasRow st e o.1.1 = false) :
    rowsFor e (ops.foldl (insOp e) st)
      = rowsFor e st ++ ops.map (fun o => freshRow e o.2 o.1) := by
  induction ops generalizing st with
  | nil => simp
  | cons o ops ih =>
    rw [List.map_cons, List.nodup_cons] at hnd
    rw [List.foldl_cons]
    have h0 := hfresh o (List.mem_cons_self o ops)
    have hins : insOp e st o = st ++ [freshRow e o.2 o.1] := by
      simp [insOp, seedInsert, h0]
    rw [hins, ih _ hnd.2 ?nextfresh]
    · rw [rowsFor_append]
      have hsingle : rowsFor e [freshRow e o.2 o.1] = [freshRow e o.2 o.1] := by
        simp [rowsFor, freshRow]
      rw [hsingle, List.map_cons, List.append_assoc]
      rfl
    case nextfresh =>
      intro o' ho'
      rw [hasRow_append, hfresh o' (List.mem_cons_of_mem o ho')]
      have hne : (o.1.1 == o'.1.1) = false := by
        rw [beq_eq_false_iff_ne]
        intro hq
        exact hnd.1 (hq ▸ List.mem_map_of_mem _ ho')
      simp [hasRow, freshRow, hne]

/-! ### Concrete fixtures for witnesses and counterexamples -/

/-- A profiles table with one active admin of tenant e1. -/
def demoProfiles : List Profile :=
  [{ id := "p1", user_id := "u1", empresa_id := "e1", papel := "admin",
     role := "admin", ativo := true }]

/-- A profiles table with one active non-admin member of tenant e1. -/
def viewerProfiles : List Profile :=
  [{ id := "p2", user_id := "u2", empresa_id := "e1", papel := "viewer",
     role := "viewer", ativo := true }]

/-! ### C1 -/

/-- C1: for the mandatory module core, the flag seeded by the first
`Seed` is enabled, and any sequence of authorised `Toggle` calls whose
body key normalises to core with desired enabled = false is rejected one
by one with the mandatory-module error `CORE_CANNOT_BE_DISABLED`,
leaving the stored table and the audit log unchanged, so the flag stays
enabled. -/
theorem C1_mandatory_core (profiles : List Profile) (tok : String)
    (user : Option String) (e uid pid : String) (now : Nat) (st : List Row)
    (af : Bool) (audit : List AuditEvent) (calls : List (String × Nat))
    (hadm : assertAdmin profiles user e = .ok uid pid)
    (hfirst : hasRow st e ("core") = false)
    (hcalls : ∀ c ∈ calls, jsToLower (jsTrim c.1) = "core") :
    ((lookupRow (seedModules e now st) e ("core")).map (·.enabled)
        = some true)
    ∧ (calls.foldl
        (fun sa c =>
          ((togglePOST profiles (some tok) user (some e) c.1 false c.2 af
              sa.1 sa.2).2.1,
            (togglePOST profiles (some tok) user (some e) c.1 false c.2 af
              sa.1 sa.2).2.2))
        (seedModules e now st, audit)
        = (seedModules e now st, audit))
    ∧ (∀ c ∈ calls,
        (togglePOST profiles (some tok) user (some e) c.1 false c.2 af
            (seedModules e now st) audit).1
          = .err 400 "CORE_CANNOT_BE_DISABLED") := by
  refine ⟨?_, ?_, ?_⟩
  · rw [lookupRow_seedModules_new e now st ("core", true) (by decide) hfirst]
    rfl
  · apply foldl_const_of_id
    intro c hc acc
    rw [togglePOST_core_reject profiles tok user e uid pid c.1 c.2 af acc.1
      acc.2 hadm (hcalls c hc)]
  · intro c hc
    rw [togglePOST_core_reject profiles tok user e uid pid c.1 c.2 af
      (seedModules e now st) audit hadm (hcalls c hc)]

/-- C1 witness at concrete inputs. -/
theorem C1_mandatory_core_witness :
    ((lookupRow (seedModules ("e1") 0 []) ("e1") ("core")).map (·.enabled)
        = some true)
    ∧ ([("core", 1), (" CORE ", 2)].foldl
        (fun sa c =>
          ((togglePOST demoProfiles (some "t") (some "u1") (some "e1") c.1
              false c.2 false sa.1 sa.2).2.1,
            (togglePOST demoProfiles (some "t") (some "u1") (some "e1") c.1
              false c.2 false sa.1 sa.2).2.2))
        (seedModules ("e1") 0 [], [])
        = (seedModules ("e1") 0 [], []))
    ∧ (∀ c ∈ [("core", 1), (" CORE ", 2)],
        (togglePOST demoProfiles (some "t") (some "u1") (some "e1") c.1
            false c.2 false (seedModules ("e1") 0 []) []).1
          = .err 400 "CORE_CANNOT_BE_DISABLED") :=
  C1_mandatory_core demoProfiles "t" (some "u1") "e1" "u1" "p1" 0 [] false []
    [("core", 1), (" CORE ", 2)] (by decide) (by decide) (by decide)

/-! ### C2 -/

/-- C2 counterexample: `people` is a catalog module with
`implemented = false`, yet an authorised `Toggle(e1, people, true)`
succeeds with `ok` (no `ModuleNotImplemented` rejection exists) and
mutates the stored row to enabled. -/
theorem C2_not_implemented_cex :
    implementedOf ("people") = false
    ∧ (togglePOST demoProfiles (some "t") (some "u1") (some "e1") "people"
          true 5 false [] []).1
        = .ok { empresa_id := "e1", module_key := "people", enabled := true,
                enabled_at := some 5, updated_at := 5 } "OK"
    ∧ ((lookupRow (togglePOST demoProfiles (some "t") (some "u1")
            (some "e1") "people" true 5 false [] []).2.1 ("e1")
            ("people")).map (·.enabled)
        = some true) :=
  ⟨rfl, by decide, by decide⟩

/-- C2 (amended): for every catalog module whose descriptor has
`implemented = false`, an authorised `Toggle(tenant, module, true)` does
not fail: the endpoint checks only catalog membership and the core
guardrail, so the call returns `ok` and the stored row is mutated to
`enabled = true`. -/
theorem C2_unimplemented_enable_succeeds (profiles : List Profile)
    (tok : String) (user : Option String) (e uid pid bk : String) (now : Nat)
    (af : Bool) (st : List Row) (audit : List AuditEvent)
    (hadm : assertAdmin profiles user e = .ok uid pid)
    (hvalid : VALID_MODULES (jsToLower (jsTrim bk)) = true)
    (himpl : implementedOf (jsToLower (jsTrim bk)) = false) :
    (togglePOST profiles (some tok) user (some e) bk true now af st audit).1
        = .ok { empresa_id := e, module_key := jsToLower (jsTrim bk),
                enabled := true, enabled_at := some now, updated_at := now }
            (if af then "FAILED" else "OK")
    ∧ ((lookupRow (togglePOST profiles (some tok) user (some e) bk true now
          af st audit).2.1 e (jsToLower (jsTrim bk))).map (·.enabled)
        = some true) := by
  rw [togglePOST_enable_spec profiles tok user e uid pid bk now af st audit
    hadm hvalid]
  refine ⟨rfl, ?_⟩
  have hhas := hasRow_seed_valid e now st _ hvalid
  rw [lookupRow_updateRow_self e (jsToLower (jsTrim bk)) (enablePatch now)
    (seedModules e now st) (enablePatch_id now)]
  rw [hasRow_eq_isSome] at hhas
  obtain ⟨r0, hr0⟩ := Option.isSome_iff_exists.mp hhas
  rw [hr0]
  rfl

/-- C2 witness at concrete inputs (the unimplemented module `track`). -/
theorem C2_unimplemented_enable_succeeds_witness :
    (togglePOST demoProfiles (some "t") (some "u1") (some "e1") "track" true
        7 false [] []).1
        = .ok { empresa_id := "e1", module_key := jsToLower (jsTrim "track"),
                enabled := true, enabled_at := some 7, updated_at := 7 }
            (if false then "FAILED" else "OK")
    ∧ ((lookupRow (togglePOST demoProfiles (some "t") (some "u1") (some "e1")
          "track" true 7 false [] []).2.1 ("e1")
          (jsToLower (jsTrim "track"))).map (·.enabled)
        = some true) :=
  C2_unimplemented_enable_succeeds demoProfiles "t" (some "u1") "e1" "u1"
    "p1" "track" 7 false [] [] (by decide) (by decide) (by decide)

/-! ### C3 -/

/-- C3 counterexample: docs is not the mandatory module, yet immediately
after a fresh `Seed` its flag row is enabled — the seed inserts
`enabled = true` for docs as well, so "exactly the one mandatory module
is enabled" fails. -/
theorem C3_docs_enabled_cex :
    ("docs" : String) ≠ "core"
    ∧ lockedOf ("docs") = false
    ∧ ((lookupRow (seedModules ("t1") 0 []) ("t1") ("docs")).map (·.enabled)
        = some true) :=
  ⟨by decide, rfl, by decide⟩

/-- C3 (amended): for a tenant with no flag rows, `Seed` inserts exactly
one row per catalog descriptor in catalog order, with
`enabled = true` exactly for core and docs (the seed's design defaults)
and `enabled = false` for the other seven modules. -/
theorem C3_seed_defaults (e : String) (now : Nat) (st : List Row)
    (hfresh : keysFor e st = []) :
    rowsFor e (seedModules e now st) = SEED_VALUES.map (freshRow e now)
    ∧ ∀ kv ∈ SEED_VALUES,
        (lookupRow (seedModules e now st) e kv.1).map (·.enabled)
          = some (kv.1 == "core" || kv.1 == "docs") := by
  have hnorows : rowsFor e st = [] := by
    rw [keysFor] at hfresh
    exact List.map_eq_nil_iff.mp hfresh
  have hhas : ∀ k, hasRow st e k = false := by
    intro k
    rw [← Bool.not_eq_true, hasRow_iff_mem_keysFor, hfresh]
    simp
  constructor
  · rw [seedModules_eq_foldl]
    rw [rowsFor_foldl_fresh e _ st ?hnd ?hf]
    · rw [hnorows, List.nil_append, List.map_map]
      rfl
    case hnd =>
      rw [List.map_map,
        show ((fun (o : (String × Bool) × Nat) => o.1.1)
            ∘ fun kv : String × Bool => (kv, now)) = Prod.fst from rfl]
      decide
    case hf =>
      intro o _
      exact hhas o.1.1
  · intro kv hkv
    rw [lookupRow_seedModules_new e now st kv hkv (hhas kv.1)]
    have hval : kv.2 = (kv.1 == "core" || kv.1 == "docs") := by
      revert hkv
      revert kv
      decide
    simp [freshRow, hval]

/-- C3 witness at concrete inputs. -/
theorem C3_seed_defaults_witness :
    rowsFor ("t1") (seedModules ("t1") 3 [])
        = SEED_VALUES.map (freshRow ("t1") 3)
    ∧ ∀ kv ∈ SEED_VALUES,
        (lookupRow (seedModules ("t1") 3 []) ("t1") kv.1).map (·.enabled)
          = some (kv.1 == "core" || kv.1 == "docs") :=
  C3_seed_defaults "t1" 3 [] (by decide)

/-! ### C4 -/

/-- C4 counterexample: an authorised `Toggle(e1, docs, true)` at time 1
followed by the same call at time 2 does not leave `enabled_at`
unchanged: the route writes `enabled_at = now()` on every enabling call,
so the second call moves it from `some 1` to `some 2` and the final
states differ. -/
theorem C4_enabled_at_cex :
    ((lookupRow (togglePOST demoProfiles (some "t") (some "u1") (some "e1")
        "docs" true 1 false [] []).2.1 ("e1") ("docs")).map (·.enabled_at)
      = some (some 1))
    ∧ ((lookupRow (togglePOST demoProfiles (some "t") (some "u1") (some "e1")
        "docs" true 2 false
        (togglePOST demoProfiles (some "t") (some "u1") (some "e1") "docs"
          true 1 false [] []).2.1
        (togglePOST demoProfiles (some "t") (some "u1") (some "e1") "docs"
          true 1 false [] []).2.2).2.1 ("e1") ("docs")).map (·.enabled_at)
      = some (some 2))
    ∧ (togglePOST demoProfiles (some "t") (some "u1") (some "e1") "docs"
        true 2 false
        (togglePOST demoProfiles (some "t") (some "u1") (some "e1") "docs"
          true 1 false [] []).2.1
        (togglePOST demoProfiles (some "t") (some "u1") (some "e1") "docs"
          true 1 false [] []).2.2).2.1
      ≠ (togglePOST demoProfiles (some "t") (some "u1") (some "e1") "docs"
          true 1 false [] []).2.1 :=
  ⟨by decide, by decide, by decide⟩

/-- C4 (amended): enabling twice is idempotent on `enabled` (both calls
leave the row enabled and report success), but `enabled_at` is
overwritten with the current time on every enabling call — it equals the
first call's timestamp after the first call and the second call's
timestamp after the second — so the two calls yield identical states only
when their timestamps coincide; a subsequent disable keeps (never clears)
the last `enabled_at`. -/
theorem C4_enable_twice (profiles : List Profile) (tok : String)
    (user : Option String) (e uid pid bk : String) (t1 t2 t3 : Nat)
    (af : Bool) (st : List Row) (audit : List AuditEvent)
    (hadm : assertAdmin profiles user e = .ok uid pid)
    (hvalid : VALID_MODULES (jsToLower (jsTrim bk)) = true) :
    ((lookupRow (togglePOST profiles (some tok) user (some e) bk true t1 af
        st audit).2.1 e (jsToLower (jsTrim bk))).map
          (fun r => (r.enabled, r.enabled_at))
      = some (true, some t1))
    ∧ ((lookupRow (togglePOST profiles (some tok) user (some e) bk true t2
        af (togglePOST profiles (some tok) user (some e) bk true t1 af st
          audit).2.1
        (togglePOST profiles (some tok) user (some e) bk true t1 af st
          audit).2.2).2.1 e (jsToLower (jsTrim bk))).map
          (fun r => (r.enabled, r.enabled_at))
      = some (true, some t2))
    ∧ (t1 = t2 →
        (togglePOST profiles (some tok) user (some e) bk true t2 af
          (togglePOST profiles (some tok) user (some e) bk true t1 af st
            audit).2.1
          (togglePOST profiles (some tok) user (some e) bk true t1 af st
            audit).2.2).2.1
        = (togglePOST profiles (some tok) user (some e) bk true t1 af st
            audit).2.1)
    ∧ ((jsToLower (jsTrim bk) == "core") = false →
        (lookupRow (togglePOST profiles (some tok) user (some e) bk false t3
          af (togglePOST profiles (some tok) user (some e) bk true t1 af st
            audit).2.1
          (togglePOST profiles (some tok) user (some e) bk true t1 af st
            audit).2.2).2.1 e (jsToLower (jsTrim bk))).map
            (fun r => (r.enabled, r.enabled_at))
        = some (false, some t1)) := by
  set k := jsToLower (jsTrim bk) with hkdef
  have hspec1 := togglePOST_enable_spec profiles tok user e uid pid bk t1 af
    st audit hadm hvalid
  have hlook1 :
      lookupRow (togglePOST profiles (some tok) user (some e) bk true t1 af
        st audit).2.1 e k = some
          { empresa_id := e, module_key := k, enabled := true,
            enabled_at := some t1, updated_at := t1 } := by
    rw [hspec1]
    rw [lookupRow_updateRow_self e k (enablePatch t1) (seedModules e t1 st)
      (enablePatch_id t1)]
    have hhas := hasRow_seed_valid e t1 st k hvalid
    rw [hasRow_eq_isSome] at hhas
    obtain ⟨r0, hr0⟩ := Option.isSome_iff_exists.mp hhas
    have hprops := lookupRow_mem_props hr0
    rw [hr0]
    simp [enablePatch, hprops.2.1, hprops.2.2]
  have hseednoop : ∀ t', seedModules e t'
      (togglePOST profiles (some tok) user (some e) bk true t1 af st
        audit).2.1
      = (togglePOST profiles (some tok) user (some e) bk true t1 af st
        audit).2.1 := by
    intro t'
    apply seedModules_noop
    intro k' hk'
    rw [hspec1]
    rw [hasRow_updateRow e k (enablePatch t1) (seedModules e t1 st)
      (enablePatch_id t1)]
    exact hasRow_seed_valid e t1 st k' (List.elem_iff.mpr hk')
  have hspec2 := togglePOST_enable_spec profiles tok user e uid pid bk t2 af
    (togglePOST profiles (some tok) user (some e) bk true t1 af st
      audit).2.1
    (togglePOST profiles (some tok) user (some e) bk true t1 af st
      audit).2.2 hadm hvalid
  have hstate2 :
      (togglePOST profiles (some tok) user (some e) bk true t2 af
        (togglePOST profiles (some tok) user (some e) bk true t1 af st
          audit).2.1
        (togglePOST profiles (some tok) user (some e) bk true t1 af st
          audit).2.2).2.1
      = updateRow e k (enablePatch t2)
          (togglePOST profiles (some tok) user (some e) bk true t1 af st
            audit).2.1 := by
    rw [hspec2, hseednoop t2]
  refine ⟨?_, ?_, ?_, ?_⟩
  · rw [hlook1]
    rfl
  · rw [hstate2]
    rw [lookupRow_updateRow_self e k (enablePatch t2) _ (enablePatch_id t2)]
    rw [hlook1]
    simp [enablePatch]
  · intro ht
    subst ht
    rw [hstate2, hspec1]
    rw [updateRow_updateRow e k (enablePatch t1) (enablePatch t1)
      (seedModules e t1 st) (enablePatch_id t1)]
    rfl
  · intro hk
    obtain ⟨r0, hr0, hdis⟩ := togglePOST_disable_spec profiles tok user e uid
      pid bk t3 af
      (togglePOST profiles (some tok) user (some e) bk true t1 af st
        audit).2.1
      (togglePOST profiles (some tok) user (some e) bk true t1 af st
        audit).2.2 hadm hvalid hk
    rw [hdis]
    rw [hseednoop t3]
    rw [lookupRow_updateRow_self e k (disablePatch t3) _ (disablePatch_id t3)]
    rw [hlook1]
    simp [disablePatch]

/-- C4 witness at concrete inputs. -/
theorem C4_enable_twice_witness :
    ((lookupRow (togglePOST demoProfiles (some "t") (some "u1") (some "e1")
        "docs" true 4 false [] []).2.1 ("e1")
        (jsToLower (jsTrim "docs"))).map (fun r => (r.enabled, r.enabled_at))
      = some (true, some 4))
    ∧ ((lookupRow (togglePOST demoProfiles (some "t") (some "u1")
        (some "e1") "docs" true 4 false
        (togglePOST demoProfiles (some "t") (some "u1") (some "e1") "docs"
          true 4 false [] []).2.1
        (togglePOST demoProfiles (some "t") (some "u1") (some "e1") "docs"
          true 4 false [] []).2.2).2.1 ("e1")
        (jsToLower (jsTrim "docs"))).map (fun r => (r.enabled, r.enabled_at))
      = some (true, some 4))
    ∧ ((4 : Nat) = 4 →
        (togglePOST demoProfiles (some "t") (some "u1") (some "e1") "docs"
          true 4 false
          (togglePOST demoProfiles (some "t") (some "u1") (some "e1") "docs"
            true 4 false [] []).2.1
          (togglePOST demoProfiles (some "t") (some "u1") (some "e1") "docs"
            true 4 false [] []).2.2).2.1
        = (togglePOST demoProfiles (some "t") (some "u1") (some "e1") "docs"
            true 4 false [] []).2.1)
    ∧ ((jsToLower (jsTrim "docs") == "core") = false →
        (lookupRow (togglePOST demoProfiles (some "t") (some "u1")
          (some "e1") "docs" false 9 false
          (togglePOST demoProfiles (some "t") (some "u1") (some "e1") "docs"
            true 4 false [] []).2.1
          (togglePOST demoProfiles (some "t") (some "u1") (some "e1") "docs"
            true 4 false [] []).2.2).2.1 ("e1")
          (jsToLower (jsTrim "docs"))).map
            (fun r => (r.enabled, r.enabled_at))
        = some (false, some 4)) :=
  C4_enable_twice demoProfiles "t" (some "u1") "e1" "u1" "p1" "docs" 4 4 9
    false [] [] (by decide) (by decide)

/-! ### C5 -/

/-- C5 (amended): in the module toggle write path an audit-insert failure
never propagates: the resulting table state is identical with and without
the audit fault, a run that would succeed still reports ok but with the
`audit = FAILED` indicator, error responses are unchanged, and the faulty
run appends nothing to the log.  (The one-time bootstrap path, by
contrast, turns an audit failure into an overall 500 — see the
counterexample.) -/
theorem C5_toggle_audit_soft (profiles : List Profile)
    (tok user empresaId : Option String) (bk : String) (be : Bool)
    (now : Nat) (st : List Row) (audit : List AuditEvent) :
    ((togglePOST profiles tok user empresaId bk be now true st audit).2.1
      = (togglePOST profiles tok user empresaId bk be now false st
          audit).2.1)
    ∧ (∀ row, (togglePOST profiles tok user empresaId bk be now false st
          audit).1 = .ok row "OK" →
        (togglePOST profiles tok user empresaId bk be now true st audit).1
          = .ok row "FAILED")
    ∧ ((togglePOST profiles tok user empresaId bk be now true st
        audit).2.2 = audit)
    ∧ (∀ s c, (togglePOST profiles tok user empresaId bk be now false st
          audit).1 = .err s c →
        (togglePOST profiles tok user empresaId bk be now true st audit).1
          = .err s c) := by
  unfold togglePOST
  cases empresaId with
  | none =>
    exact ⟨rfl, fun row h => by simp at h, rfl, fun s c h => h⟩
  | some e =>
    cases tok with
    | none =>
      exact ⟨rfl, fun row h => by simp at h, rfl, fun s c h => h⟩
    | some tk =>
      dsimp only
      cases hadm : assertAdmin profiles user e with
      | err s0 c0 =>
        exact ⟨rfl, fun row h => by simp at h, rfl, fun s c h => h⟩
      | ok uid pid =>
        dsimp only
        cases hv : VALID_MODULES (jsToLower (jsTrim bk)) with
        | false =>
          exact ⟨rfl, fun row h => by simp at h, rfl, fun s c h => h⟩
        | true =>
          cases hc : (jsToLower (jsTrim bk) == "core" && be == false) with
          | true =>
            exact ⟨rfl, fun row h => by simp at h, rfl, fun s c h => h⟩
          | false =>
            cases hup : upsertToggle e (jsToLower (jsTrim bk)) be now
                (seedModules e now st) with
            | error m =>
              exact ⟨rfl, fun row h => by simp at h, rfl, fun s c h => h⟩
            | ok pr =>
              obtain ⟨st2, row⟩ := pr
              refine ⟨rfl, ?_, ?_⟩
              · intro row2 h
                have h1 : row = row2 := by
                  have h2 := h
                  simp only [] at h2
                  injection h2 with h3 h4
                subst h1
                rfl
              · refine ⟨rfl, ?_⟩
                intro s c h
                exact absurd h (by simp)

/-- C5 witness: at concrete inputs, a simulated audit fault leaves the
toggle's table mutation intact and the response is ok with the FAILED
indicator. -/
theorem C5_toggle_audit_soft_witness :
    ((togglePOST demoProfiles (some "t") (some "u1") (some "e1") "docs"
        true 3 true [] []).2.1
      = (togglePOST demoProfiles (some "t") (some "u1") (some "e1") "docs"
          true 3 false [] []).2.1)
    ∧ ((togglePOST demoProfiles (some "t") (some "u1") (some "e1") "docs"
        true 3 true [] []).1
      = .ok { empresa_id := "e1", module_key := "docs", enabled := true,
              enabled_at := some 3, updated_at := 3 } "FAILED") :=
  ⟨(C5_toggle_audit_soft demoProfiles (some "t") (some "u1") (some "e1")
      "docs" true 3 [] []).1,
   (C5_toggle_audit_soft demoProfiles (some "t") (some "u1") (some "e1")
      "docs" true 3 [] []).2.1 _ (by decide)⟩

/-- The bootstrap body used by the C5 counterexample: only the admin user
id is supplied, everything else takes the route's defaults. -/
def bootBody1 : BootBody :=
  ⟨none, none, some "12345678-1234-4123-8123-123456789abc", none, none⟩

/-- C5 counterexample: the bootstrap write path propagates an audit
failure as the overall failure: with all primary inserts succeeding and
only the audit insert failing, the response is a 500 with `ok = false`
although the empresa, settings, module and profile rows were already
committed — while the same call with a healthy audit insert returns 200
`ok = true`. -/
theorem C5_bootstrap_audit_cex :
    ((bootstrapPOST bootBody1 ("emp1") 9 true ⟨[], [], [], [], []⟩).1
      = { status := 500, ok := false })
    ∧ ((bootstrapPOST bootBody1 ("emp1") 9 true ⟨[], [], [], [], []⟩).2.empresas
      = [("emp1", "Empresa 1")])
    ∧ ((bootstrapPOST bootBody1 ("emp1") 9 true
        ⟨[], [], [], [], []⟩).2.profileRows ≠ [])
    ∧ ((bootstrapPOST bootBody1 ("emp1") 9 false ⟨[], [], [], [], []⟩).1
      = { status := 200, ok := true }) :=
  ⟨by decide, by decide, by decide, by decide⟩

/-! ### C6 -/

theorem assertAdmin_cases (profiles : List Profile) (uid e : String) :
    (∀ p, profiles.find? (fun q => q.user_id == uid && q.empresa_id == e)
        = some p →
      (p.ativo = false → assertAdmin profiles (some uid) e
          = .err 403 "NO_PROFILE")
      ∧ (p.ativo = true → p.papel ≠ "admin" →
          assertAdmin profiles (some uid) e = .err 403 "NOT_ADMIN")
      ∧ (p.ativo = true → p.papel = "admin" →
          assertAdmin profiles (some uid) e = .ok uid p.id))
    ∧ (profiles.find? (fun q => q.user_id == uid && q.empresa_id == e)
        = none →
      assertAdmin profiles (some uid) e = .err 403 "NO_PROFILE") := by
  constructor
  · intro p hp
    refine ⟨?_, ?_, ?_⟩
    · intro ha
      simp [assertAdmin, hp, ha]
    · intro ha hr
      simp [assertAdmin, hp, ha, hr]
    · intro ha hr
      simp [assertAdmin, hp, ha, hr]
  · intro hnone
    simp [assertAdmin, hnone]

theorem auditAssertAdmin_cases (profiles : List Profile) (uid e : String) :
    (∀ p, profiles.find? (fun q => q.user_id == uid && q.empresa_id == e)
        = some p →
      (p.ativo = false → auditAssertAdmin profiles uid e
          = .err 403 "NO_PROFILE")
      ∧ (p.ativo = true → p.role ≠ "admin" →
          auditAssertAdmin profiles uid e = .err 403 "NOT_ADMIN")
      ∧ (p.ativo = true → p.role = "admin" →
          auditAssertAdmin profiles uid e = .ok uid p.id))
    ∧ (profiles.find? (fun q => q.user_id == uid && q.empresa_id == e)
        = none →
      auditAssertAdmin profiles uid e = .err 403 "NO_PROFILE") := by
  constructor
  · intro p hp
    refine ⟨?_, ?_, ?_⟩
    · intro ha
      simp [auditAssertAdmin, hp, ha]
    · intro ha hr
      simp [auditAssertAdmin, hp, ha, hr]
    · intro ha hr
      simp [auditAssertAdmin, hp, ha, hr]
  · intro hnone
    simp [auditAssertAdmin, hnone]

/-- C6 counterexample: an active non-admin member of tenant e1 is denied
both reads with `NOT_ADMIN` — an active membership does not suffice. -/
theorem C6_active_member_denied_cex :
    ((viewerProfiles.find?
        (fun p => p.user_id == "u2" && p.empresa_id == "e1")).map
        (fun p => (p.ativo, p.papel, p.role))
      = some (true, "viewer", "viewer"))
    ∧ ((modulesListGET viewerProfiles (some "t") (some "u2") (some "e1") 0
        []).1 = .err 403 "NOT_ADMIN")
    ∧ (auditListGET viewerProfiles (some "u2") (some "e1") none none []
        = .err 403 "NOT_ADMIN") :=
  ⟨by decide, by decide, by decide⟩

/-- C6 (amended): both read endpoints gate on an active membership WITH
the admin role: an absent or inactive membership is denied NO_PROFILE, an
active non-admin membership is denied NOT_ADMIN, and only an active
admin passes to the query. -/
theorem C6_reads_require_admin (profiles : List Profile) (tok uid e : String)
    (now : Nat) (st : List Row) (limit : Option Int) (cursor : Option Nat)
    (log : List AuditEvent) :
    (∀ p, profiles.find? (fun q => q.user_id == uid && q.empresa_id == e)
        = some p → p.ativo = true →
      (p.papel ≠ "admin" →
        (modulesListGET profiles (some tok) (some uid) (some e) now st).1
          = .err 403 "NOT_ADMIN")
      ∧ (p.role ≠ "admin" →
        auditListGET profiles (some uid) (some e) limit cursor log
          = .err 403 "NOT_ADMIN")
      ∧ (p.papel = "admin" →
        ∃ rows, (modulesListGET profiles (some tok) (some uid) (some e) now
          st).1 = .ok e rows))
    ∧ (profiles.find? (fun q => q.user_id == uid && q.empresa_id == e)
        = none →
      ((modulesListGET profiles (some tok) (some uid) (some e) now st).1
          = .err 403 "NO_PROFILE")
      ∧ (auditListGET profiles (some uid) (some e) limit cursor log
          = .err 403 "NO_PROFILE")) := by
  constructor
  · intro p hp ha
    refine ⟨?_, ?_, ?_⟩
    · intro hr
      have h := ((assertAdmin_cases profiles uid e).1 p hp).2.1 ha hr
      unfold modulesListGET
      dsimp only
      rw [h]
    · intro hr
      have h := ((auditAssertAdmin_cases profiles uid e).1 p hp).2.1 ha hr
      unfold auditListGET
      dsimp only
      rw [h]
    · intro hr
      have h := ((assertAdmin_cases profiles uid e).1 p hp).2.2 ha hr
      unfold modulesListGET
      dsimp only
      rw [h]
      exact ⟨_, rfl⟩
  · intro hnone
    constructor
    · have h := (assertAdmin_cases profiles uid e).2 hnone
      unfold modulesListGET
      dsimp only
      rw [h]
    · have h := (auditAssertAdmin_cases profiles uid e).2 hnone
      unfold auditListGET
      dsimp only
      rw [h]

/-- C6 witness at concrete inputs: the active viewer is denied both
reads; a missing membership is denied NO_PROFILE. -/
theorem C6_reads_require_admin_witness :
    ((modulesListGET viewerProfiles (some "t") (some "u2") (some "e1") 0
        []).1 = .err 403 "NOT_ADMIN")
    ∧ (auditListGET viewerProfiles (some "u2") (some "e1") none none []
        = .err 403 "NOT_ADMIN")
    ∧ ((modulesListGET viewerProfiles (some "t") (some "u9") (some "e1") 0
        []).1 = .err 403 "NO_PROFILE") :=
  ⟨(((C6_reads_require_admin viewerProfiles "t" "u2" "e1" 0 [] none none
      []).1 ⟨"p2", "u2", "e1", "viewer", "viewer", true⟩ (by decide)
      (by decide)).1 (by decide)),
   (((C6_reads_require_admin viewerProfiles "t" "u2" "e1" 0 [] none none
      []).1 ⟨"p2", "u2", "e1", "viewer", "viewer", true⟩ (by decide)
      (by decide)).2.1 (by decide)),
   (((C6_reads_require_admin viewerProfiles "t" "u9" "e1" 0 [] none none
      []).2 (by decide)).1)⟩

/-! ### C7 -/

/-- C7: `List` after `Seed` returns exactly one row per catalog
descriptor — the returned keys are precisely the nine catalog keys in
ascending order, with no duplicates (first conjunct); seeding is
idempotent, so invoking it any number of times changes nothing after the
first (second conjunct); and any interleaving of per-row seed inserts
from concurrently seeding callers — every op drawn from the seed's rows,
every seed row covered — converges to exactly the canonical row set, a
permutation of the nine `(module, enabled)` seed pairs (third
conjunct). -/
theorem C7_list_one_row_per_descriptor :
    (∀ (profiles : List Profile) (tok : String) (user : Option String)
        (e uid pid : String) (now : Nat) (st : List Row),
      assertAdmin profiles user e = .ok uid pid → WFtenant e st →
      ∃ rows, (modulesListGET profiles (some tok) user (some e) now st).1
          = .ok e rows
        ∧ rows.map (·.module_key) = MODULE_SORTED)
    ∧ (∀ (e : String) (t1 t2 : Nat) (st : List Row),
        seedModules e t2 (seedModules e t1 st) = seedModules e t1 st)
    ∧ (∀ (e : String) (st : List Row)
        (ops : List ((String × Bool) × Nat)),
        (∀ o ∈ ops, o.1 ∈ SEED_VALUES) →
        (∀ kv ∈ SEED_VALUES, kv ∈ ops.map Prod.fst) →
        keysFor e st = [] →
        (pairsFor e (ops.foldl (insOp e) st)).Perm SEED_VALUES) := by
  refine ⟨?_, ?_, ?_⟩
  · intro profiles tok user e uid pid now st hadm hwf
    unfold modulesListGET
    dsimp only
    rw [hadm]
    dsimp only
    refine ⟨_, rfl, ?_⟩
    have hperm : ((rowsFor e (seedModules e now st)).map
        (·.module_key)).Perm MODULE_ORDER := keysFor_seed_perm e now st hwf
    exact sorted_rows_keys_eq _ hperm
  · intro e t1 t2 st
    apply seedModules_noop
    intro k hk
    exact hasRow_seed_valid e t1 st k (List.elem_iff.mpr hk)
  · intro e st ops h1 h2 h3
    exact interleaved_seed_pairs e st ops h1 h2 h3

/-- The interleaving of two complete seeders used by the C7 witness. -/
def twoSeeders : List ((String × Bool) × Nat) :=
  SEED_VALUES.map (fun kv => (kv, 0)) ++ SEED_VALUES.map (fun kv => (kv, 1))

/-- C7 witness at concrete inputs. -/
theorem C7_list_one_row_per_descriptor_witness :
    (∃ rows, (modulesListGET demoProfiles (some "t") (some "u1") (some "e1")
        0 []).1 = .ok "e1" rows
      ∧ rows.map (·.module_key) = MODULE_SORTED)
    ∧ seedModules ("e1") 5 (seedModules ("e1") 2 []) = seedModules ("e1") 2 []
    ∧ (pairsFor ("e1") (twoSeeders.foldl (insOp ("e1")) [])).Perm
        SEED_VALUES :=
  ⟨C7_list_one_row_per_descriptor.1 demoProfiles "t" (some "u1") "e1" "u1"
      "p1" 0 [] (by decide) ⟨by decide, by decide⟩,
   C7_list_one_row_per_descriptor.2.1 "e1" 2 5 [],
   C7_list_one_row_per_descriptor.2.2 "e1" [] twoSeeders (by decide)
      (by decide) (by decide)⟩

/-! ### C8 -/

/-- With the v2 registry (routes only for core and docs), path resolution
can only produce core, docs, or nothing. -/
theorem resolve_cases (pn : String) :
    resolveModuleFromPath pn = none
    ∨ resolveModuleFromPath pn = some "core"
    ∨ resolveModuleFromPath pn = some "docs" := by
  unfold resolveModuleFromPath
  simp only [ROUTES_BY_MODULE, List.foldl_cons, List.foldl_nil]
  cases h0 : (pn == "") with
  | true => simp
  | false =>
    cases h1 : (pn == "/adm" || jsStartsWith pn ("/adm/core")) with
    | true => simp
    | false =>
      simp only [Bool.false_eq_true, if_false]
      cases h2 : (pn == "/adm/docs" || jsStartsWith pn ("/adm/docs" ++ "/")
          || jsStartsWith pn ("/adm/docs")) with
      | true =>
        simp [h2]
        exact Or.inr (by decide)
      | false => simp [h2]

theorem resolve_docs_registered :
    (ROUTES_BY_MODULE.lookup ("docs")).isSome = true := by decide

/-- C8 (amended): the guard allows any path it cannot resolve to a module
(unknown routes pass through), always allows core, and for the one
resolvable non-core module — docs, the only non-core module with a
registered route in v2 — denies exactly when docs is not in the enabled
set, redirecting to /adm/core/modulos with reason not_enabled; in
particular every denial has that one shape. -/
theorem C8_guard_characterization :
    (∀ (keys : List String) (pn : String),
      resolveModuleFromPath pn = none → moduleGuardCheck keys pn = .allow)
    ∧ (∀ (keys : List String) (pn : String),
      resolveModuleFromPath pn = some "core" →
        moduleGuardCheck keys pn = .allow)
    ∧ (∀ (pn : String) (k : String),
      resolveModuleFromPath pn = some k → k ≠ "core" → k = "docs")
    ∧ (∀ (keys : List String) (pn : String),
      resolveModuleFromPath pn = some "docs" →
        moduleGuardCheck keys pn
          = (if keys.contains ("docs") then .allow
             else .deny "not_enabled" "/adm/core/modulos"))
    ∧ (∀ (keys : List String) (pn : String) (r red : String),
      moduleGuardCheck keys pn = .deny r red →
        r = "not_enabled" ∧ red = "/adm/core/modulos"
        ∧ resolveModuleFromPath pn = some "docs"
        ∧ keys.contains ("docs") = false) := by
  have hdocs : ∀ (keys : List String) (pn : String),
      resolveModuleFromPath pn = some "docs" →
      moduleGuardCheck keys pn
        = (if keys.contains ("docs") then .allow
           else .deny "not_enabled" "/adm/core/modulos") := by
    intro keys pn h
    unfold moduleGuardCheck
    rw [h]
    cases hk : keys.contains ("docs") with
    | true =>
      have hm : "docs" ∈ keys := List.elem_iff.mp hk
      simp [ROUTES_BY_MODULE, implementedOf, hk, hm]
    | false =>
      have hm : ¬ ("docs" ∈ keys) := fun hmem => by
        have hk2 : List.elem ("docs") keys = false := hk
        rw [List.elem_iff.mpr hmem] at hk2
        simp at hk2
      simp [ROUTES_BY_MODULE, implementedOf, hk, hm]
  refine ⟨?_, ?_, ?_, hdocs, ?_⟩
  · intro keys pn h
    unfold moduleGuardCheck
    rw [h]
  · intro keys pn h
    unfold moduleGuardCheck
    rw [h]
    rfl
  · intro pn k h hk
    rcases resolve_cases pn with h0 | h0 | h0 <;> rw [h0] at h
    · cases h
    · cases h
      exact absurd rfl hk
    · cases h
      rfl
  · intro keys pn r red h
    rcases resolve_cases pn with h0 | h0 | h0
    · unfold moduleGuardCheck at h
      rw [h0] at h
      cases h
    · unfold moduleGuardCheck at h
      rw [h0] at h
      exact (nomatch h)
    · have := hdocs keys pn h0
      rw [this] at h
      cases hk : keys.contains ("docs") with
      | true =>
        rw [hk, if_pos rfl] at h
        exact (nomatch h)
      | false =>
        rw [hk, if_neg (by simp)] at h
        cases h
        exact ⟨rfl, rfl, h0, rfl⟩

/-- C8 counterexample: the path of the unimplemented module people
(`/adm/people`, a live route of the app's `[module]` page) resolves to no
module for the guard, and navigation is allowed even though people is
neither implemented nor enabled — the claim would require a denial here.
The same holds for `/adm/finance`. -/
theorem C8_unknown_route_allowed_cex :
    resolveModuleFromPath "/adm/people" = none
    ∧ implementedOf ("people") = false
    ∧ (["core"].contains ("people")) = false
    ∧ moduleGuardCheck ["core"] "/adm/people" = .allow
    ∧ moduleGuardCheck ["core"] "/adm/finance" = .allow :=
  ⟨by decide, rfl, by decide, by decide, by decide⟩

/-- C8 witness at concrete inputs: docs not enabled is denied towards the
modules page, docs enabled is allowed. -/
theorem C8_guard_characterization_witness :
    moduleGuardCheck ["core"] "/adm/docs"
      = (if (["core"].contains ("docs")) then GuardDecision.allow
         else .deny "not_enabled" "/adm/core/modulos")
    ∧ moduleGuardCheck ["core", "docs"] "/adm/docs/x"
      = (if (["core", "docs"].contains ("docs")) then GuardDecision.allow
         else .deny "not_enabled" "/adm/core/modulos") :=
  ⟨(C8_guard_characterization.2.2.2.1 ["core"] "/adm/docs" (by decide)),
   (C8_guard_characterization.2.2.2.1 ["core", "docs"] "/adm/docs/x"
      (by decide))⟩

/-! ### C9 -/

theorem mem_dedupFirstAux_of {a : String} {l : List String} :
    ∀ {seen : List String}, a ∈ l → ¬ a ∈ seen → a ∈ dedupFirstAux seen l := by
  induction l with
  | nil => intro seen h _; cases h
  | cons x xs ih =>
    intro seen h hs
    by_cases hx : seen.contains x = true
    · have hstep : dedupFirstAux seen (x :: xs) = dedupFirstAux seen xs := by
        simp only [dedupFirstAux, hx, if_true]
      rw [hstep]
      rcases List.mem_cons.mp h with rfl | h'
      · exact absurd (List.elem_iff.mp hx) hs
      · exact ih h' hs
    · rw [Bool.not_eq_true] at hx
      have hstep : dedupFirstAux seen (x :: xs)
          = x :: dedupFirstAux (x :: seen) xs := by
        simp only [dedupFirstAux, hx, Bool.false_eq_true, if_false]
      rw [hstep]
      rcases List.mem_cons.mp h with rfl | h'
      · exact List.mem_cons_self _ _
      · by_cases hax : a = x
        · subst hax
          exact List.mem_cons_self _ _
        · refine List.mem_cons_of_mem _ (ih h' ?_)
          intro hm
          rcases List.mem_cons.mp hm with h1 | h1
          · exact hax h1
          · exact hs h1

theorem mem_dedupFirst_of {a : String} {l : List String} (h : a ∈ l) :
    a ∈ dedupFirst l :=
  mem_dedupFirstAux_of h (by simp)

theorem find?_eq_head?_of_all {α : Type} (l : List α) (p : α → Bool)
    (h : ∀ x ∈ l, p x = true) : l.find? p = l.head? := by
  cases l with
  | nil => rfl
  | cons x xs =>
    rw [List.find?_cons, h x (List.mem_cons_self x xs)]
    rfl

theorem activeProfilesOf_mem {uid : String} {profiles : List CtxProfile}
    {p : CtxProfile} (hp : p ∈ activeProfilesOf uid profiles) :
    p.user_id = uid ∧ p.ativo ≠ some false := by
  unfold activeProfilesOf at hp
  have h2 := List.mem_filter.mp hp
  constructor
  · have h3 := (List.mem_insertionSort _).mp h2.1
    have h4 := List.mem_filter.mp h3
    simpa using h4.2
  · simpa using h2.2

theorem ativo_getD {p : CtxProfile} (h : p.ativo ≠ some false) :
    p.ativo.getD true = true := by
  cases hx : p.ativo with
  | none => rfl
  | some b =>
    cases b with
    | false => exact absurd hx h
    | true => rfl

theorem activeProfilesOf_sorted (uid : String) (profiles : List CtxProfile) :
    List.Sorted ctxCreatedLe (activeProfilesOf uid profiles) :=
  List.Pairwise.filter _ (List.sorted_insertionSort ctxCreatedLe _)

/-- C9: `ResolveContext` returns exactly the principal's active
memberships in creation order, each enriched with the tenant's display
name (`nome ?? id`, null when the tenant row is missing), the default
tenant is deterministically the first such membership's tenant, and a
principal with zero memberships gets the valid non-error response with an
empty list and a null default. -/
theorem C9_resolve_context (uid : String) (email : Option String)
    (profiles : List CtxProfile) (empresas : List (String × Option String)) :
    (contextGET (some (uid, email)) profiles empresas
      = .ok uid email
          ((activeProfilesOf uid profiles).head?.map fun p =>
            { profile_id := some p.id, display_name := p.display_name,
              role := p.role, empresa_id := some p.empresa_id })
          ((activeProfilesOf uid profiles).map fun p =>
            { empresa_id := p.empresa_id,
              nome := (empresas.lookup p.empresa_id).map
                (fun n => n.getD p.empresa_id),
              role := p.role, ativo := true })
          ((activeProfilesOf uid profiles).head?.map (·.empresa_id)))
    ∧ List.Sorted ctxCreatedLe (activeProfilesOf uid profiles)
    ∧ (∀ p ∈ activeProfilesOf uid profiles,
        p.user_id = uid ∧ p.ativo ≠ some false)
    ∧ (activeProfilesOf uid profiles = [] →
        contextGET (some (uid, email)) profiles empresas
          = .ok uid email none [] none) := by
  have hmain : contextGET (some (uid, email)) profiles empresas
      = .ok uid email
          ((activeProfilesOf uid profiles).head?.map fun p =>
            { profile_id := some p.id, display_name := p.display_name,
              role := p.role, empresa_id := some p.empresa_id })
          ((activeProfilesOf uid profiles).map fun p =>
            { empresa_id := p.empresa_id,
              nome := (empresas.lookup p.empresa_id).map
                (fun n => n.getD p.empresa_id),
              role := p.role, ativo := true })
          ((activeProfilesOf uid profiles).head?.map (·.empresa_id)) := by
    unfold contextGET
    dsimp only
    congr 1
    · apply List.map_congr_left
      intro p hp
      have hmem := activeProfilesOf_mem hp
      have hid2 : p.empresa_id ∈ dedupFirst ((activeProfilesOf uid
          profiles).map (·.empresa_id)) :=
        mem_dedupFirst_of (List.mem_map_of_mem _ hp)
      have hid : (dedupFirst ((activeProfilesOf uid profiles).map
          (·.empresa_id))).contains p.empresa_id = true :=
        List.elem_iff.mpr hid2
      simp [hid, hid2, ativo_getD hmem.2]
    · cases hact : activeProfilesOf uid profiles with
      | nil => simp
      | cons p ps =>
        have hp : p ∈ activeProfilesOf uid profiles := by
          rw [hact]
          exact List.mem_cons_self p ps
        have hativo := ativo_getD (activeProfilesOf_mem hp).2
        simp [List.find?_cons, hativo]
  refine ⟨hmain, activeProfilesOf_sorted uid profiles,
    fun p hp => activeProfilesOf_mem hp, ?_⟩
  intro h0
  rw [hmain, h0]
  rfl

/-- C9 witness at concrete inputs: two active memberships (created in
reverse storage order) and one inactive one; the inactive is dropped, the
order is by creation time, and the default tenant is the earliest
membership's; plus the zero-membership case. -/
theorem C9_resolve_context_witness :
    (contextGET (some ("u1", some "a@b"))
        [⟨"p2", "u1", "e2", some "viewer", some true, none, 7⟩,
         ⟨"p1", "u1", "e1", some "admin", some true, some "Ana", 3⟩,
         ⟨"p3", "u1", "e3", some "x", some false, none, 1⟩]
        [("e1", some "Empresa Um"), ("e2", none)]
      = .ok "u1" (some "a@b")
          ((activeProfilesOf "u1"
            [⟨"p2", "u1", "e2", some "viewer", some true, none, 7⟩,
             ⟨"p1", "u1", "e1", some "admin", some true, some "Ana", 3⟩,
             ⟨"p3", "u1", "e3", some "x", some false, none, 1⟩]).head?.map
            fun p =>
              { profile_id := some p.id, display_name := p.display_name,
                role := p.role, empresa_id := some p.empresa_id })
          ((activeProfilesOf "u1"
            [⟨"p2", "u1", "e2", some "viewer", some true, none, 7⟩,
             ⟨"p1", "u1", "e1", some "admin", some true, some "Ana", 3⟩,
             ⟨"p3", "u1", "e3", some "x", some false, none, 1⟩]).map
            fun p =>
              { empresa_id := p.empresa_id,
                nome := ([("e1", some "Empresa Um"),
                  ("e2", none)].lookup p.empresa_id).map
                    (fun n => n.getD p.empresa_id),
                role := p.role, ativo := true })
          ((activeProfilesOf "u1"
            [⟨"p2", "u1", "e2", some "viewer", some true, none, 7⟩,
             ⟨"p1", "u1", "e1", some "admin", some true, some "Ana", 3⟩,
             ⟨"p3", "u1", "e3", some "x", some false, none, 1⟩]).head?.map
            (·.empresa_id)))
    ∧ (contextGET (some ("u9", none)) [] [] = .ok "u9" none none [] none) :=
  ⟨(C9_resolve_context "u1" (some "a@b")
      [⟨"p2", "u1", "e2", some "viewer", some true, none, 7⟩,
       ⟨"p1", "u1", "e1", some "admin", some true, some "Ana", 3⟩,
       ⟨"p3", "u1", "e3", some "x", some false, none, 1⟩]
      [("e1", some "Empresa Um"), ("e2", none)]).1,
   (C9_resolve_context "u9" none [] []).2.2.2 rfl⟩

/-! ### C10 -/

theorem mem_core_uniqWithCore (l : List String) : "core" ∈ uniqWithCore l := by
  have hstep : dedupFirstAux [] ("core" :: l)
      = "core" :: dedupFirstAux ["core"] l := by
    simp only [dedupFirstAux, List.contains_nil, Bool.false_eq_true,
      if_false]
  rw [uniqWithCore, dedupFirst, hstep]
  exact List.mem_cons_self _ _

theorem mem_core_keysFromCache (c : Option (List String)) :
    "core" ∈ keysFromCache c := by
  cases c with
  | none => exact List.mem_cons_self _ _
  | some l =>
    unfold keysFromCache
    dsimp only
    split
    · exact List.mem_cons_self _ _
    · exact mem_core_uniqWithCore _

theorem mem_core_keysFromModules (rows : List ClientModuleRow) :
    "core" ∈ keysFromModules rows :=
  mem_core_uniqWithCore _

theorem shellStep_core_invariant (s : ShellState) (ev : ShellEvent)
    (h : "core" ∈ s.enabledKeys) :
    "core" ∈ (shellStep s ev).enabledKeys := by
  cases ev with
  | ctxLoaded nextEmpresa cached =>
    cases nextEmpresa with
    | none => exact List.mem_cons_self _ _
    | some e => exact mem_core_keysFromCache cached
  | modulesResp eid resp =>
    cases resp with
    | none => exact h
    | some pr =>
      obtain ⟨rid, rows⟩ := pr
      unfold shellStep
      dsimp only
      split
      · exact h
      · exact mem_core_keysFromModules rows
  | modulesUpdated eid keys =>
    cases eid with
    | none => exact h
    | some e =>
      cases keys with
      | none => exact h
      | some ks =>
        unfold shellStep
        dsimp only
        split
        · exact mem_core_uniqWithCore _
        · exact h
  | switchEmpresa next cached => exact mem_core_keysFromCache cached

theorem buildMenu_core_entry (keys : List String) (h : "core" ∈ keys) :
    ({ href := "/adm", label := "Core" } : NavItem) ∈ buildMenu keys := by
  unfold buildMenu
  dsimp only
  apply List.mem_filterMap.mpr
  refine ⟨"core", ?_, by decide⟩
  rw [List.mem_insertionSort]
  exact List.mem_filter.mpr ⟨h, by decide⟩

/-- C10: the client's enabled-module set always contains core: the shell
starts core-only, every reachable state under the shell's events keeps
core in the set (so the Core entry is always in the menu built from it),
an errored or unparsable list response leaves the previous set untouched,
and so does an ok response that names a different tenant than the one it
was requested for. -/
theorem C10_core_always_enabled :
    shellInit.enabledKeys = ["core"]
    ∧ (∀ evs : List ShellEvent,
        "core" ∈ (evs.foldl shellStep shellInit).enabledKeys)
    ∧ (∀ evs : List ShellEvent,
        ({ href := "/adm", label := "Core" } : NavItem)
          ∈ buildMenu (evs.foldl shellStep shellInit).enabledKeys)
    ∧ (∀ (s : ShellState) (eid : String),
        shellStep s (.modulesResp eid none) = s)
    ∧ (∀ (s : ShellState) (eid rid : String)
        (rows : List ClientModuleRow), (rid != eid) = true →
        shellStep s (.modulesResp eid (some (rid, rows))) = s) := by
  have hfold : ∀ (evs : List ShellEvent) (s : ShellState),
      "core" ∈ s.enabledKeys →
      "core" ∈ (evs.foldl shellStep s).enabledKeys := by
    intro evs
    induction evs with
    | nil => intro s h; exact h
    | cons ev evs ih =>
      intro s h
      exact ih _ (shellStep_core_invariant s ev h)
  refine ⟨rfl, ?_, ?_, ?_, ?_⟩
  · intro evs
    exact hfold evs shellInit (List.mem_cons_self _ _)
  · intro evs
    exact buildMenu_core_entry _ (hfold evs shellInit (List.mem_cons_self _ _))
  · intro s eid
    rfl
  · intro s eid rid rows hne
    unfold shellStep
    dsimp only
    rw [if_pos hne]

/-- C10 witness: a mismatched-tenant response keeps the previous set. -/
theorem C10_core_always_enabled_witness :
    "core" ∈ ([ShellEvent.ctxLoaded (some "e1") none,
      ShellEvent.modulesResp "e1" none].foldl shellStep
        shellInit).enabledKeys
    ∧ shellStep { empresaId := some "e1", enabledKeys := ["core", "docs"] }
        (.modulesResp "e1" (some ("e2", [⟨"people", true⟩])))
      = { empresaId := some "e1", enabledKeys := ["core", "docs"] } :=
  ⟨C10_core_always_enabled.2.1 [ShellEvent.ctxLoaded (some "e1") none,
      ShellEvent.modulesResp "e1" none],
   C10_core_always_enabled.2.2.2.2
     { empresaId := some "e1", enabledKeys := ["core", "docs"] } "e1" "e2"
     [⟨"people", true⟩] (by decide)⟩

end Moduz
